import Mathlib

/-!
Verification of the `mistletoe` docutils renderer (`mistletoe/docutils_renderer.py`)
against its natural-language specification.

The development shallowly embeds the renderer: the output document tree is an
arena of nodes (`RState.nodes`, indexed by position), the renderer state carries
the mutable insertion point (`current_node`), the section stack
(`_level_to_elem`) and the footnote accumulator, and each `render_*` handler is
translated into a Lean function over that state.  External collaborators
(the docutils directive registry, the YAML parser, directive `run` methods)
are parameters (`Env`, `Directive.run`), mirroring the spec's interface view.
Python string helpers used by the code (`str.strip`, `re.split`, `str.split`,
`urllib.parse.urlparse`, `urllib.parse.unquote`, `str.splitlines`) are modelled
character-by-character on `List Char`.
-/

namespace Mistletoe

/-! ### Python string helpers -/

/-- Characters stripped by Python `str.strip()` (the ASCII whitespace set;
the code only ever strips markdown text, which stays in this range). -/
def pyWsChars : List Char := [' ', '\t', '\n', '\r', '\x0b', '\x0c']

def isPyWs (c : Char) : Bool := pyWsChars.contains c

/-- Python `s.strip()`: drop leading and trailing whitespace. -/
def pyStripL (l : List Char) : List Char :=
  ((l.dropWhile isPyWs).reverse.dropWhile isPyWs).reverse

/-- Negation of the character class `[ \n]` used in `Role.__init__`'s
`re.split("[ \n]+", ...)`. -/
def notSpNl (c : Char) : Bool := !(c = ' ' || c = '\n')

/-- Python `re.split("[ \n]+", s)`: the pieces of `s` between maximal runs of
spaces and newlines (with empty pieces at the ends when `s` starts or ends
with such a run). -/
def reSplit (l : List Char) : List (List Char) :=
  let tok := l.takeWhile notSpNl
  match h : l.dropWhile notSpNl with
  | [] => [tok]
  | _ :: t => tok :: reSplit (t.dropWhile (fun c => !(notSpNl c)))
termination_by l.length
decreasing_by
  have hdw : ∀ (p : Char → Bool) (m : List Char), (m.dropWhile p).length ≤ m.length := by
    intro p m
    induction m with
    | nil => simp [List.dropWhile]
    | cons c r ih =>
      rw [List.dropWhile_cons]
      split
      · exact Nat.le_succ_of_le ih
      · simp
  have h1 : (l.dropWhile notSpNl).length ≤ l.length := hdw notSpNl l
  rw [h] at h1
  have h2 : (t.dropWhile (fun c => !(notSpNl c))).length ≤ t.length := hdw _ t
  simp only [List.length_cons] at h1
  omega

/-- Python `" ".join(pieces)`. -/
def joinSp : List (List Char) → List Char
  | [] => []
  | [x] => x
  | x :: y :: r => x ++ ' ' :: joinSp (y :: r)

/-- The transformation described by the spec for role content: every maximal
run of spaces and newlines becomes a single space (leading/trailing whitespace
is handled separately by `pyStripL`).  Written directly, to be compared with
the code's `" ".join(re.split("[ \n]+", ...))`. -/
def specCollapse : List Char → List Char
  | [] => []
  | c :: rest =>
    if notSpNl c then c :: specCollapse rest
    else ' ' :: specCollapse (rest.dropWhile (fun x => !(notSpNl x)))
termination_by l => l.length
decreasing_by
  · simp only [List.length_cons]; omega
  · have hdw : ∀ (p : Char → Bool) (m : List Char), (m.dropWhile p).length ≤ m.length := by
      intro p m
      induction m with
      | nil => simp [List.dropWhile]
      | cons c r ih =>
        rw [List.dropWhile_cons]
        split
        · exact Nat.le_succ_of_le ih
        · simp
    have h2 : (rest.dropWhile (fun x => !(notSpNl x))).length ≤ rest.length := hdw _ rest
    simp only [List.length_cons]
    omega

/-! ### The `Role` span token (`docutils_renderer.py`, `Role.__init__`)

`Role.__init__` receives the regex match groups and stores a single `RawText`
child whose content is `" ".join(re.split("[ \n]+", content.strip()))` where
`content` is the backtick-span group of the match. -/

structure RoleToken where
  name : String
  /-- Contents of the `RawText` children (each child is one string). -/
  children : List String
  deriving DecidableEq, Repr

/-- The content stored by `Role.__init__`:
`" ".join(re.split("[ \n]+", content.strip()))`. -/
def roleContentCode (content : String) : String :=
  ⟨joinSp (reSplit (pyStripL content.data))⟩

/-- `Role.__init__`: `self.name = match.group(1)`;
`self.children = (RawText(" ".join(re.split("[ \n]+", content.strip()))),)`. -/
def mkRoleToken (name content : String) : RoleToken :=
  { name := name, children := [roleContentCode content] }

/-- The spec-side description of the stored content: strip leading and
trailing whitespace, then collapse every internal run of spaces and newlines
to a single space. -/
def roleContentSpec (content : String) : String :=
  ⟨specCollapse (pyStripL content.data)⟩

/-! ### More Python string helpers used by the renderer -/

/-- Python `s.split()` (whitespace split, no empty pieces), as used by
`parse_directive_arguments`. -/
def pySplitWsGo (cur : List Char) : List Char → List (List Char)
  | [] => if cur.isEmpty then [] else [cur]
  | c :: t =>
    if isPyWs c then
      if cur.isEmpty then pySplitWsGo [] t else cur :: pySplitWsGo [] t
    else pySplitWsGo (cur ++ [c]) t

def pySplitWsL (l : List Char) : List (List Char) := pySplitWsGo [] l

/-- Python `s.split(None, maxsplit)`: after `maxsplit` splits the remainder
(with its leading whitespace skipped, trailing kept) is the final piece. -/
def pySplitMaxL (maxs : Nat) (l : List Char) : List (List Char) :=
  match maxs, l.dropWhile isPyWs with
  | _, [] => []
  | 0, c :: t => [c :: t]
  | maxs + 1, c :: t =>
    ((c :: t).takeWhile (fun x => !(isPyWs x))) ::
      pySplitMaxL maxs ((c :: t).dropWhile (fun x => !(isPyWs x)))

/-- Python `s.splitlines()` restricted to `'\n'` separators (the renderer only
splits markdown text, whose line breaks are newlines). -/
def pySplitlinesGo (cur : List Char) : List Char → List (List Char)
  | [] => if cur.isEmpty then [] else [cur]
  | c :: t => if c = '\n' then cur :: pySplitlinesGo [] t else pySplitlinesGo (cur ++ [c]) t

def pySplitlines (s : String) : List String :=
  (pySplitlinesGo [] s.data).map (fun l => (⟨l⟩ : String))

/-- Python `"\n".join(pieces)`. -/
def joinNlL : List (List Char) → List Char
  | [] => []
  | [x] => x
  | x :: y :: r => x ++ '\n' :: joinNlL (y :: r)

/-- `re.search(r"^-{3,}", content, re.MULTILINE)` followed by the slicing in
`render_directive`: find the first line starting with three or more dashes and
return the text before the match and the text after the (greedy) dash run. -/
def fenceSplitGo (acc : List Char) (atLineStart : Bool) : List Char → Option (List Char × List Char)
  | [] => none
  | c :: t =>
    if atLineStart && decide (3 ≤ ((c :: t).takeWhile (fun x => x = '-')).length) then
      some (acc, (c :: t).dropWhile (fun x => x = '-'))
    else fenceSplitGo (acc ++ [c]) (c = '\n') t

/-- Hex digit value accepted by `urllib.parse.unquote`. -/
def hexDigitVal (c : Char) : Option Nat :=
  if c.isDigit then some (c.toNat - '0'.toNat)
  else if 'a' ≤ c ∧ c ≤ 'f' then some (c.toNat - 'a'.toNat + 10)
  else if 'A' ≤ c ∧ c ≤ 'F' then some (c.toNat - 'A'.toNat + 10)
  else none

/-- `urllib.parse.unquote`, modelled byte-for-byte on the ASCII range (each
valid `%hh` escape becomes the character with that code; an invalid escape is
kept literally, scanning resuming right after the `%`). -/
def pyUnquoteL : List Char → List Char
  | [] => []
  | c :: a :: b :: t =>
    if c = '%' then
      match hexDigitVal a, hexDigitVal b with
      | some ha, some hb => Char.ofNat (ha * 16 + hb) :: pyUnquoteL t
      | _, _ => c :: pyUnquoteL (a :: b :: t)
    else c :: pyUnquoteL (a :: b :: t)
  | c :: rest => c :: pyUnquoteL rest

/-- The characters allowed in a URI scheme by `urllib.parse.urlsplit`. -/
def schemeChars : List Char :=
  "abcdefghijklmnopqrstuvwxyzABCDEFGHIJKLMNOPQRSTUVWXYZ0123456789+-.".data

/-- Scheme extraction of `urllib.parse.urlsplit` (CPython 3.6+): the text
before the first `:` is a scheme when the colon is not first, every character
is a scheme character, and the remainder is not a bare port number; `http` is
special-cased.  Returns `(scheme, remainder)`. -/
def urlSchemeSplit (l : List Char) : List Char × List Char :=
  let i := l.indexOf ':'
  if 0 < i ∧ i < l.length then
    let pre := l.take i
    let rest := l.drop (i + 1)
    if pre = ['h', 't', 't', 'p'] then (pre, rest)
    else if pre.all (schemeChars.contains ·) then
      if rest.isEmpty || rest.any (fun c => !(c.isDigit)) then (pre.map Char.toLower, rest)
      else ([], l)
    else ([], l)
  else ([], l)

/-- Fragment extraction of `urlsplit`: everything after the first `#` of the
post-scheme remainder (empty when there is no `#`). -/
def splitFirstHash (l : List Char) : List Char × List Char :=
  (l.takeWhile (fun c => !(c = '#')),
    match l.dropWhile (fun c => !(c = '#')) with
    | [] => []
    | _ :: t => t)

/-- The `(scheme, fragment)` pair of `urlparse(destination)` as read by
`render_link`. -/
def urlSchemeFragment (url : String) : String × String :=
  let sr := urlSchemeSplit url.data
  (⟨sr.1⟩, ⟨(splitFirstHash sr.2).2⟩)

/-! ### The output document tree (docutils nodes), as an arena

Docutils nodes are mutable objects linked by `parent`/`children`; the model
stores them in an arena (`RState.nodes`) addressed by creation index.
Only the attributes the renderer actually sets are modelled; the `level`
field on sections is a ghost annotation recording the heading level a section
was created from (docutils does not store it), used purely for specification. -/

inductive NKind where
  | document | paragraph | text | strong | emphasis | blockQuote | transition
  | rawHtml | math | mathBlock | literal | literalBlock | section | title
  | reference | pendingXref | image | bulletList | enumeratedList | listItem
  | systemMessage
  deriving DecidableEq, Repr

structure RNode where
  kind : NKind
  parent : Option Nat := none
  children : List Nat := []
  /-- Ghost: heading level for sections, severity for system messages. -/
  level : Nat := 0
  line : Nat := 0
  text : String := ""
  language : String := ""
  refuri : String := ""
  reftarget : String := ""
  reftype : String := ""
  titleAttr : Option String := none
  uri : String := ""
  altAttr : String := ""
  format : String := ""
  nowrap : Bool := false
  deriving DecidableEq, Repr

instance : Inhabited RNode := ⟨{ kind := .document }⟩

/-- The context handed to a directive implementation
(`directive_class(name=..., arguments=..., options=..., content=..., lineno=...,
content_offset=..., block_text=..., ...)`). -/
structure DirCtx where
  name : String
  arguments : List String
  options : List (String × String)
  content : List String
  lineno : Nat
  contentOffset : Nat
  blockText : String
  deriving DecidableEq, Repr

/-- Renderer state: the shared node arena (rooted at `document`), the mutable
insertion point `current_node`, the section stack `_level_to_elem`, the
footnote accumulator, and a ghost trace `runCalls` recording every invocation
of a directive `run` method together with its context. -/
structure RState where
  nodes : List RNode
  document : Nat
  currentNode : Nat
  levelToElem : List (Nat × Nat)
  footnotes : List String
  runCalls : List DirCtx
  deriving DecidableEq, Repr

/-- Create a node; returns its index. -/
def RState.newNode (s : RState) (n : RNode) : Nat × RState :=
  (s.nodes.length, { s with nodes := s.nodes ++ [n] })

/-- Reparenting step of docutils `append`. -/
def RNode.withParent (n : RNode) (p : Nat) : RNode := { n with parent := some p }

/-- Child-list extension step of docutils `append`. -/
def RNode.addChild (n : RNode) (c : Nat) : RNode :=
  { n with children := n.children ++ [c] }

/-- Child-list extension by several children (specification helper). -/
def RNode.addChildren (n : RNode) (cs : List Nat) : RNode :=
  { n with children := n.children ++ cs }

/-- docutils `parent.append(child)`: sets the child's parent and adds the
child to the parent's child list. -/
def RState.appendChild (s : RState) (p c : Nat) : RState :=
  let ns1 := match s.nodes[c]? with
    | some nc => s.nodes.set c (nc.withParent p)
    | none => s.nodes
  let ns2 := match ns1[p]? with
    | some np => ns1.set p (np.addChild c)
    | none => ns1
  { s with nodes := ns2 }

def RState.nth (s : RState) (i : Nat) : RNode := s.nodes.getD i default

/-- Failure modes of `yaml.safe_load`: `yaml.parser.ParserError`, or one of
its sibling `MarkedYAMLError` subclasses (`ScannerError`, `ComposerError`,
`ReaderError` — e.g. a `ScannerError` from an unterminated single-quoted
scalar), which are not subclasses of `ParserError` and therefore are not
caught by the `except yaml.parser.ParserError` clause in
`render_directive`. -/
inductive YamlErr where
  | parserError
  | scannerError
  deriving DecidableEq, Repr

/-- Python exceptions that can escape a handler. -/
inductive RErr where
  | notImplemented
  | runtimeError (msg : String)
  | attributeError
  | assertionError
  | keyError
  | valueError
  | yamlError (e : YamlErr)
  deriving DecidableEq, Repr

/-- Outcomes of calling a directive's `run`: a list of produced node indices,
a structured `DirectiveError`, or an `AttributeError` from calling an
unimplemented mock-state method. -/
inductive DirRunErr where
  | directiveError (level : Nat) (msg : String)
  | attributeError
  deriving DecidableEq, Repr

/-- A resolved directive implementation (external collaborator): declared
arity plus an opaque `run`, which receives the invocation context and may
read and extend the shared render state. -/
structure Directive where
  required_arguments : Nat
  optional_arguments : Nat
  final_argument_whitespace : Bool
  run : DirCtx → RState → Except DirRunErr (List Nat) × RState

/-- External collaborators of the renderer: the `known_url_schemes` config,
the directive registry `directives.directive(name, ...)` (returning an
implementation or `None` plus system-message nodes), and `yaml.safe_load`
(returning a parsed flat mapping, `None`, or raising one of the `YamlErr`
failure kinds). -/
structure Env where
  knownUrlSchemes : Option (List String)
  lookupDirective : String → Option Directive × List RNode
  yamlParse : String → Except YamlErr (Option (List (String × String)))

/-- `DocutilsRenderer.parse_directive_arguments`. -/
def parse_directive_arguments (directive : Directive) (arg_text : String) :
    Except String (List String) :=
  let required := directive.required_arguments
  let optional := directive.optional_arguments
  let arguments := (pySplitWsL arg_text.data).map (fun l => (⟨l⟩ : String))
  if arguments.length < required then
    .error (toString required ++ " argument(s) required, " ++
      toString arguments.length ++ " supplied")
  else if required + optional < arguments.length then
    if directive.final_argument_whitespace then
      .ok ((pySplitMaxL (required + optional - 1) arg_text.data).map (fun l => (⟨l⟩ : String)))
    else
      .error ("maximum " ++ toString (required + optional) ++
        " argument(s) allowed, " ++ toString arguments.length ++ " supplied")
  else .ok arguments

/-- The front-matter slicing in `render_directive` when the content starts
with `---`: drop the first line, find the closing fence, and return
`(yaml_block, remaining_content)` (with no closing fence, everything is the
yaml block and the content becomes empty). -/
def directiveFrontMatter (content : String) : String × String :=
  let c1 : List Char := joinNlL ((pySplitlinesGo [] content.data).drop 1)
  match fenceSplitGo [] true c1 with
  | some pp => (⟨pp.1⟩, ⟨pp.2⟩)
  | none => (⟨c1⟩, "")

/-- `self.current_node += messages` for freshly supplied (registry-produced)
nodes: create each node and append it under the current insertion point. -/
def spliceNewNodes (s : RState) (ns : List RNode) : RState :=
  ns.foldl (fun st n =>
    let r := st.newNode n
    r.2.appendChild r.2.currentNode r.1) s

/-- The tail of `render_directive` from the `directive_instance.run()` call on:
record the invocation in the ghost trace, execute `run`, convert a
`DirectiveError` into a system-message + literal-block fallback, re-raise an
`AttributeError`, validate that the result elements are nodes, and splice them
under the current insertion point. -/
def runDirectivePhase (d : Directive) (ctx : DirCtx) (content : String) (line : Nat)
    (s : RState) : RState × Option RErr :=
  let s0 := { s with runCalls := s.runCalls ++ [ctx] }
  match d.run ctx s0 with
  | (.error (.directiveError lvl msg), s1) =>
    let r1 := s1.newNode { kind := .systemMessage, level := lvl, text := msg, line := line }
    let r2 := r1.2.newNode { kind := .literalBlock, text := content }
    let s4 := r2.2.appendChild r1.1 r2.1
    (s4.appendChild s4.currentNode r1.1, none)
  | (.error .attributeError, s1) => (s1, some .attributeError)
  | (.ok result, s1) =>
    if result.all (· < s1.nodes.length) then
      (result.foldl (fun st i => st.appendChild st.currentNode i) s1, none)
    else (s1, some .assertionError)

/-- The option-processing prefix of `render_directive`: when the content
starts with `---` (Python `content.startswith("---")`), split off the
front-matter and parse it with `yaml.safe_load`, where a `None` result
(`options or {}`) and a `ParserError` (`except yaml.parser.ParserError: pass`)
both leave the options empty, while any other `yaml` failure kind is not
caught and escapes.  Returns `(options-or-escaping-error,
remaining_content)`. -/
def directiveOptions (env : Env) (content : String) :
    Except YamlErr (List (String × String)) × String :=
  if content.data.take 3 = ['-', '-', '-'] then
    let fm := directiveFrontMatter content
    ((match env.yamlParse fm.1 with
      | .ok v => .ok (v.getD [])
      | .error .parserError => .ok []
      | .error e => .error e), fm.2)
  else ((.ok [] : Except YamlErr (List (String × String))), content)

/-- `DocutilsRenderer.render_directive`.  `language`, `content`, `arguments`
and `line` are the block-code token's fields (`token.language`,
`token.children[0].content`, `token.arguments`, `token.range[0]`). -/
def renderDirective (env : Env) (language content arguments : String) (line : Nat)
    (s : RState) : RState × Option RErr :=
  let name : String := ⟨(language.data.drop 1).dropLast⟩
  let oc := directiveOptions env content
  match oc.1 with
  | .error e => (s, some (.yamlError e))
  | .ok options =>
    match env.lookupDirective name with
    | (none, messages) => (spliceNewNodes s messages, none)
    | (some directive_class, _) =>
      match parse_directive_arguments directive_class arguments with
      | .error msg => (s, some (.runtimeError msg))
      | .ok args =>
        let ctx : DirCtx :=
          { name := name, arguments := args, options := options,
            content := pySplitlines oc.2, lineno := line, contentOffset := 0,
            blockText := oc.2 }
        runDirectivePhase directive_class ctx oc.2 line s

/-- `DocutilsRenderer._add_section(section, level)`: attach under the deepest
stack entry with a strictly smaller level, record the new entry, prune deeper
entries.  `max` over an empty generator raises `ValueError`; a missing key
raises `KeyError` (neither occurs in reachable states). -/
def addSection (s : RState) (sec level : Nat) : RState × Option RErr :=
  let keysBelow := (s.levelToElem.map Prod.fst).filter (· < level)
  match keysBelow with
  | [] => (s, some .valueError)
  | k :: ks =>
    let parent_level := (k :: ks).foldl max 0
    match s.levelToElem.lookup parent_level with
    | none => (s, some .keyError)
    | some parent =>
      let s1 := s.appendChild parent sec
      let stack1 := (level, sec) :: s1.levelToElem.filter (fun p => !(p.1 = level))
      ({ s1 with levelToElem := stack1.filter (fun p => p.1 ≤ level) }, none)

/-- The first step of `render_heading`: when the current insertion point is a
section occupying the stack entry of the incoming heading's level
(`_is_section_level`), pop the insertion point to that section's parent.
(Docutils sections always have a parent once attached, so the parentless
branch keeps the insertion point; it is unreachable in rendered states.) -/
def headingPop (s : RState) (level : Nat) : RState :=
  if (s.nth s.currentNode).kind = .section ∧
      s.levelToElem.lookup level = some s.currentNode then
    match (s.nth s.currentNode).parent with
    | some p => { s with currentNode := p }
    | none => s
  else s

/-- The node-creation fragment of `render_heading` (specification alias for
the first four statements of the handler: pop, create title, create section,
`new_section.append(title_node)`). -/
def headingSetup (s : RState) (L ln : Nat) : RState :=
  let s0 := headingPop s L
  let rt := s0.newNode { kind := .title, line := ln }
  let rs := rt.2.newNode { kind := .section, line := ln, level := L }
  rs.2.appendChild rs.1 rt.1

/-! ### The token tree and the render loop

Tokens come from the external mistletoe parser; leaf content that the code
reads through `token.children[0].content` is stored directly on the token. -/

inductive Token where
  | rawText (content : String)
  | escapeSequence (content : String)
  | lineBreak
  | strong (children : List Token)
  | emphasis (children : List Token)
  | inlineCode (content : String)
  | strikethrough
  | math (content : String)
  | paragraph (line : Nat) (children : List Token)
  | quote (line : Nat) (children : List Token)
  | thematicBreak
  | blockCode (language content arguments : String) (line : Nat)
  | heading (level line : Nat) (children : List Token)
  | link (target title : String) (children : List Token)
  | image (src : String) (children : List Token)
  | list (start : Option Nat) (children : List Token)
  | listItem (children : List Token)
  | table
  | tableRow
  | tableCell
  | autoLink
  | document (footnotes : List String) (children : List Token)
  deriving Repr

mutual

/-- The dispatching render loop: one case per token kind, each the translation
of the corresponding `render_*` handler.  The result pairs the state (docutils
mutations persist even when an exception is raised) with the escaping
exception, if any.  In `render_heading`, the title-name normalization and
`note_implicit_target` registration are omitted: they only touch the `names`
attribute and the document's id table, never the tree shape, the section
stack, or the insertion point. -/
def render (env : Env) : Token → RState → RState × Option RErr
  | .rawText content, s =>
    let r := s.newNode { kind := .text, text := content }
    (r.2.appendChild r.2.currentNode r.1, none)
  | .escapeSequence content, s =>
    let r := s.newNode { kind := .text, text := content }
    (r.2.appendChild r.2.currentNode r.1, none)
  | .lineBreak, s =>
    let r := s.newNode { kind := .rawHtml, text := "<br />", format := "html" }
    (r.2.appendChild r.2.currentNode r.1, none)
  | .strong children, s =>
    let r := s.newNode { kind := .strong }
    let s2 := r.2.appendChild r.2.currentNode r.1
    match renderChildren env children { s2 with currentNode := r.1 } with
    | (s3, some e) => (s3, some e)
    | (s3, none) => ({ s3 with currentNode := s.currentNode }, none)
  | .emphasis children, s =>
    let r := s.newNode { kind := .emphasis }
    let s2 := r.2.appendChild r.2.currentNode r.1
    match renderChildren env children { s2 with currentNode := r.1 } with
    | (s3, some e) => (s3, some e)
    | (s3, none) => ({ s3 with currentNode := s.currentNode }, none)
  | .inlineCode content, s =>
    let r := s.newNode { kind := .literal, text := content }
    (r.2.appendChild r.2.currentNode r.1, none)
  | .strikethrough, s => (s, some .notImplemented)
  | .math content, s =>
    if content.data.take 2 = ['$', '$'] then
      let inner : String := ⟨((content.data.drop 2).dropLast).dropLast⟩
      let r := s.newNode { kind := .mathBlock, text := inner, nowrap := false }
      (r.2.appendChild r.2.currentNode r.1, none)
    else
      let inner : String := ⟨(content.data.drop 1).dropLast⟩
      let r := s.newNode { kind := .math, text := inner }
      (r.2.appendChild r.2.currentNode r.1, none)
  | .paragraph line children, s =>
    let r := s.newNode { kind := .paragraph, line := line }
    let s2 := r.2.appendChild r.2.currentNode r.1
    match renderChildren env children { s2 with currentNode := r.1 } with
    | (s3, some e) => (s3, some e)
    | (s3, none) => ({ s3 with currentNode := s.currentNode }, none)
  | .quote line children, s =>
    let r := s.newNode { kind := .blockQuote, line := line }
    let s2 := r.2.appendChild r.2.currentNode r.1
    match renderChildren env children { s2 with currentNode := r.1 } with
    | (s3, some e) => (s3, some e)
    | (s3, none) => ({ s3 with currentNode := s.currentNode }, none)
  | .thematicBreak, s =>
    let r := s.newNode { kind := .transition }
    (r.2.appendChild r.2.currentNode r.1, none)
  | .blockCode language content arguments line, s =>
    if language.data.head? = some '{' ∧ language.data.getLast? = some '}' then
      renderDirective env language content arguments line s
    else
      let r := s.newNode { kind := .literalBlock, text := content, language := language }
      (r.2.appendChild r.2.currentNode r.1, none)
  | .heading level line children, s =>
    let s0 := headingPop s level
    let rt := s0.newNode { kind := .title, line := line }
    let rs := rt.2.newNode { kind := .section, line := line, level := level }
    let s3 := rs.2.appendChild rs.1 rt.1
    match addSection s3 rs.1 level with
    | (s4, some e) => (s4, some e)
    | (s4, none) =>
      match renderChildren env children { s4 with currentNode := rt.1 } with
      | (s5, some e) => (s5, some e)
      | (s5, none) =>
        if (s5.nth s5.currentNode).kind = .title then
          match (s5.nth s5.currentNode).parent with
          | some secId => ({ s5 with currentNode := secId }, none)
          | none => (s5, some .attributeError)
        else (s5, some .assertionError)
  | .link target title children, s =>
    let r := s.newNode
      { kind := .reference, refuri := target,
        titleAttr := if title = "" then none else some title }
    let sf := urlSchemeFragment target
    let schemeKnown : Bool :=
      match env.knownUrlSchemes with
      | some (k :: ks) => decide (sf.1 ∈ k :: ks)
      | some [] => !(sf.1 = "")
      | none => !(sf.1 = "")
    if sf.2 = "" ∧ schemeKnown = false then
      let w := r.2.newNode
        { kind := .pendingXref,
          reftarget := ⟨pyUnquoteL target.data⟩, reftype := "any",
          titleAttr := if title = "" then none else some title }
      let s3 := w.2.appendChild w.1 r.1
      let s4 := s3.appendChild s3.currentNode w.1
      match renderChildren env children { s4 with currentNode := r.1 } with
      | (s5, some e) => (s5, some e)
      | (s5, none) => ({ s5 with currentNode := s.currentNode }, none)
    else
      let s4 := r.2.appendChild r.2.currentNode r.1
      match renderChildren env children { s4 with currentNode := r.1 } with
      | (s5, some e) => (s5, some e)
      | (s5, none) => ({ s5 with currentNode := s.currentNode }, none)
  | .image src children, s =>
    let r := s.newNode { kind := .image, uri := src, altAttr := "" }
    let s2 := r.2.appendChild r.2.currentNode r.1
    match renderChildren env children { s2 with currentNode := r.1 } with
    | (s3, some e) => (s3, some e)
    | (s3, none) => ({ s3 with currentNode := s.currentNode }, none)
  | .list start children, s =>
    let r := s.newNode
      { kind := match start with | some _ => .enumeratedList | none => .bulletList }
    let s2 := r.2.appendChild r.2.currentNode r.1
    match renderChildren env children { s2 with currentNode := r.1 } with
    | (s3, some e) => (s3, some e)
    | (s3, none) => ({ s3 with currentNode := s.currentNode }, none)
  | .listItem children, s =>
    let r := s.newNode { kind := .listItem }
    let s2 := r.2.appendChild r.2.currentNode r.1
    match renderChildren env children { s2 with currentNode := r.1 } with
    | (s3, some e) => (s3, some e)
    | (s3, none) => ({ s3 with currentNode := s.currentNode }, none)
  | .table, s => (s, some .notImplemented)
  | .tableRow, s => (s, some .notImplemented)
  | .tableCell, s => (s, some .notImplemented)
  | .autoLink, s => (s, some .notImplemented)
  | .document footnotes children, s =>
    renderChildren env children { s with footnotes := s.footnotes ++ footnotes }

/-- `render_children`: render each child in sequence; an exception aborts the
remaining children (it propagates). -/
def renderChildren (env : Env) : List Token → RState → RState × Option RErr
  | [], s => (s, none)
  | t :: ts, s =>
    match render env t s with
    | (s1, some e) => (s1, some e)
    | (s1, none) => renderChildren env ts s1

end

/-- `MockState.nested_parse(block, input_offset, node, ...)`: a fresh
`DocutilsRenderer` is constructed with the shared document and
`current_node=node` (its `_level_to_elem` is therefore `{0: document}`), and
renders the externally parsed `Document(block)`.  The outer renderer's own
cursor and section stack are separate objects and unaffected.  The
`match_titles` save/set/restore on the state machine is omitted: the nested
renderer never reads it. -/
def nestedParse (env : Env) (blockFootnotes : List String) (block : List Token)
    (node : Nat) (s : RState) : RState × Option RErr :=
  match render env (.document blockFootnotes block)
      { s with currentNode := node, levelToElem := [(0, s.document)] } with
  | (s1, e) => ({ s1 with currentNode := s.currentNode, levelToElem := s.levelToElem }, e)

/-- A fresh renderer over a fresh document (`DocutilsRenderer.__init__` with
no arguments): the arena holds the document root, the cursor sits on it, and
the section stack is `{0: document}`. -/
def initState : RState :=
  { nodes := [{ kind := .document }], document := 0, currentNode := 0,
    levelToElem := [(0, 0)], footnotes := [], runCalls := [] }

/-! ### Specification predicates and fixtures -/

/-- The section-stack consistency invariant: level 0 is present, and every
stack entry points at an in-arena document/section node whose (ghost) level is
the entry's key. -/
def stackOk (s : RState) : Prop :=
  (∃ r, (0, r) ∈ s.levelToElem) ∧
    ∀ p ∈ s.levelToElem, p.2 < s.nodes.length ∧ (s.nth p.2).level = p.1 ∧
      ((s.nth p.2).kind = .document ∨ (s.nth p.2).kind = .section)

/-- Strict nesting of the section tree: every section's parent exists and is
a document or section of strictly smaller level. -/
def sectionsNested (s : RState) : Prop :=
  ∀ i, i < s.nodes.length → (s.nth i).kind = .section →
    ∃ par, (s.nth i).parent = some par ∧ par < s.nodes.length ∧
      (s.nth par).level < (s.nth i).level ∧
      ((s.nth par).kind = .document ∨ (s.nth par).kind = .section)

/-- A token's handler restores the insertion point on every successful
return. -/
def RestoresCursor (env : Env) (t : Token) : Prop :=
  ∀ s s', render env t s = (s', none) → s'.currentNode = s.currentNode

/-- Frame relation for inline text rendering: the cursor, document, stack,
footnotes and run trace are unchanged, the arena only grows, every node other
than the insertion point is untouched, and the insertion point only gains
children. -/
def InlineExtends (s S : RState) : Prop :=
  S.currentNode = s.currentNode ∧ S.document = s.document ∧
    S.levelToElem = s.levelToElem ∧ S.footnotes = s.footnotes ∧
    S.runCalls = s.runCalls ∧ s.nodes.length ≤ S.nodes.length ∧
    (∀ j, j < s.nodes.length → j ≠ s.currentNode → S.nth j = s.nth j) ∧
    ∃ ids, S.nth s.currentNode = (s.nth s.currentNode).addChildren ids

/-- A fresh document extended with one paragraph child (node 1 under the
document root 0) — a typical target node for `nested_parse`. -/
def stateWithPara : RState :=
  (initState.newNode { kind := .paragraph }).2.appendChild 0 1

/-- A trivial environment: no scheme allow-list, empty directive registry, a
YAML parser that always yields no options. -/
def envEx : Env :=
  { knownUrlSchemes := none,
    lookupDirective := fun _ => (none, []),
    yamlParse := fun _ => .ok none }

/-- A directive requiring one positional argument whose `run` does nothing. -/
def dirNote : Directive :=
  { required_arguments := 1, optional_arguments := 0, final_argument_whitespace := false,
    run := fun _ s => (.ok [], s) }

/-- An environment resolving the name `note` to `dirNote`. -/
def envC2 : Env :=
  { knownUrlSchemes := none,
    lookupDirective := fun n => if n = "note" then (some dirNote, []) else (none, []),
    yamlParse := fun _ => .ok none }

/-- A directive with no arguments whose `run` produces nothing. -/
def dirAdm : Directive :=
  { required_arguments := 0, optional_arguments := 0, final_argument_whitespace := false,
    run := fun _ s => (.ok [], s) }

/-- An environment whose YAML parser always fails with `ParserError` (the
caught kind) and which resolves the name `adm` to `dirAdm`. -/
def envC6 : Env :=
  { knownUrlSchemes := none,
    lookupDirective := fun n => if n = "adm" then (some dirAdm, []) else (none, []),
    yamlParse := fun _ => .error .parserError }

/-- An environment whose YAML parser always fails with `ScannerError` (a
sibling of `ParserError`, not caught) and which resolves the name `adm` to
`dirAdm`. -/
def envC6bad : Env :=
  { knownUrlSchemes := none,
    lookupDirective := fun n => if n = "adm" then (some dirAdm, []) else (none, []),
    yamlParse := fun _ => .error .scannerError }

/-- A sequence of heading tokens, each given by its level, line number and
title texts. -/
def headingTokens (hs : List (Nat × Nat × List String)) : List Token :=
  hs.map (fun h => Token.heading h.1 h.2.1 (h.2.2.map Token.rawText))

/-! ### Lemmas: the code's split-and-join equals the spec's collapse -/

theorem length_dropWhile_le (p : Char → Bool) (l : List Char) :
    (l.dropWhile p).length ≤ l.length := by
  induction l with
  | nil => simp [List.dropWhile]
  | cons c t ih =>
    rw [List.dropWhile_cons]
    split
    · exact Nat.le_succ_of_le ih
    · simp

theorem reSplit_of_dropWhile_nil (l : List Char) (h : l.dropWhile notSpNl = []) :
    reSplit l = [l.takeWhile notSpNl] := by
  rw [reSplit]
  split
  · rfl
  · rename_i head t1 heq
    rw [h] at heq
    cases heq

theorem reSplit_of_dropWhile_cons (l : List Char) (d : Char) (t : List Char)
    (h : l.dropWhile notSpNl = d :: t) :
    reSplit l = l.takeWhile notSpNl :: reSplit (t.dropWhile (fun c => !(notSpNl c))) := by
  rw [reSplit]
  split
  · rename_i heq
    rw [h] at heq
    cases heq
  · rename_i head t1 heq
    rw [h] at heq
    injection heq with h1 h2
    subst h1
    subst h2
    rfl

theorem reSplit_ne_nil (l : List Char) : reSplit l ≠ [] := by
  cases hdrop : l.dropWhile notSpNl with
  | nil => rw [reSplit_of_dropWhile_nil l hdrop]; simp
  | cons d t => rw [reSplit_of_dropWhile_cons l d t hdrop]; simp

theorem joinSp_cons (x : List Char) (xs : List (List Char)) (h : xs ≠ []) :
    joinSp (x :: xs) = x ++ ' ' :: joinSp xs := by
  cases xs with
  | nil => exact absurd rfl h
  | cons y r => rfl

theorem specCollapse_cons_true (c : Char) (t : List Char) (hc : notSpNl c = true) :
    specCollapse (c :: t) = c :: specCollapse t := by
  rw [specCollapse]
  simp [hc]

theorem specCollapse_cons_false (c : Char) (t : List Char) (hc : notSpNl c = false) :
    specCollapse (c :: t) = ' ' :: specCollapse (t.dropWhile (fun x => !(notSpNl x))) := by
  rw [specCollapse]
  simp [hc]

theorem joinSp_reSplit_cons (c : Char) (t : List Char) (hc : notSpNl c = true) :
    joinSp (reSplit (c :: t)) = c :: joinSp (reSplit t) := by
  have hdropc : (c :: t).dropWhile notSpNl = t.dropWhile notSpNl := by
    rw [List.dropWhile_cons, if_pos hc]
  have htakec : (c :: t).takeWhile notSpNl = c :: t.takeWhile notSpNl := by
    rw [List.takeWhile_cons, if_pos hc]
  cases hdrop : t.dropWhile notSpNl with
  | nil =>
    rw [reSplit_of_dropWhile_nil (c :: t) (hdropc.trans hdrop),
      reSplit_of_dropWhile_nil t hdrop, htakec]
    rfl
  | cons d r =>
    rw [reSplit_of_dropWhile_cons (c :: t) d r (hdropc.trans hdrop),
      reSplit_of_dropWhile_cons t d r hdrop, htakec,
      joinSp_cons _ _ (reSplit_ne_nil _), joinSp_cons _ _ (reSplit_ne_nil _)]
    rfl

theorem joinSp_reSplit_le (n : Nat) :
    ∀ l : List Char, l.length ≤ n → joinSp (reSplit l) = specCollapse l := by
  induction n with
  | zero =>
    intro l hl
    have hnil : l = [] := List.eq_nil_of_length_eq_zero (Nat.le_zero.mp hl)
    subst hnil
    rw [reSplit_of_dropWhile_nil [] (by simp [List.dropWhile]), specCollapse]
    rfl
  | succ n ih =>
    intro l hl
    cases l with
    | nil =>
      rw [reSplit_of_dropWhile_nil [] (by simp [List.dropWhile]), specCollapse]
      rfl
    | cons c t =>
      by_cases hc : notSpNl c = true
      · rw [joinSp_reSplit_cons c t hc, specCollapse_cons_true c t hc]
        have hlt : t.length ≤ n := by
          simp only [List.length_cons] at hl
          omega
        rw [ih t hlt]
      · have hc' : notSpNl c = false := by
          cases hnc : notSpNl c
          · rfl
          · exact absurd hnc hc
        have hdropc : (c :: t).dropWhile notSpNl = c :: t := by
          rw [List.dropWhile_cons, if_neg (by simp [hc'])]
        have htakec : (c :: t).takeWhile notSpNl = [] := by
          rw [List.takeWhile_cons, if_neg (by simp [hc'])]
        rw [reSplit_of_dropWhile_cons (c :: t) c t hdropc,
          specCollapse_cons_false c t hc', htakec,
          joinSp_cons _ _ (reSplit_ne_nil _)]
        have hlen : (t.dropWhile (fun x => !(notSpNl x))).length ≤ n := by
          have h2 : (t.dropWhile (fun x => !(notSpNl x))).length ≤ t.length :=
            length_dropWhile_le _ t
          simp only [List.length_cons] at hl
          omega
        rw [ih _ hlen]
        rfl

theorem joinSp_reSplit (l : List Char) : joinSp (reSplit l) = specCollapse l :=
  joinSp_reSplit_le l.length l (Nat.le_refl _)

/-- C10: for every inline role token constructed from a source match, the token
carries exactly one `RawText` child whose content is the matched backtick-span
content with leading and trailing whitespace stripped and every internal run
of spaces and newlines collapsed to a single space. -/
theorem role_child_content (name content : String) :
    (mkRoleToken name content).children = [roleContentSpec content] ∧
      (mkRoleToken name content).children.length = 1 := by
  constructor
  · show [roleContentCode content] = [roleContentSpec content]
    unfold roleContentCode roleContentSpec
    rw [joinSp_reSplit]
  · rfl

/-! ### Arena lemmas -/

theorem nth_get (s : RState) (i : Nat) (h : i < s.nodes.length) :
    s.nodes[i]? = some (s.nth i) := by
  simp [RState.nth, List.getD_eq_getElem?_getD, List.getElem?_eq_getElem h]

theorem newNode_fst (s : RState) (n : RNode) : (s.newNode n).1 = s.nodes.length := rfl

theorem newNode_length (s : RState) (n : RNode) :
    ((s.newNode n).2).nodes.length = s.nodes.length + 1 := by
  simp [RState.newNode]

theorem newNode_nth_lt (s : RState) (n : RNode) (j : Nat) (h : j < s.nodes.length) :
    ((s.newNode n).2).nth j = s.nth j := by
  simp [RState.newNode, RState.nth, List.getD_eq_getElem?_getD,
    List.getElem?_append_left h]

theorem newNode_nth_self (s : RState) (n : RNode) :
    ((s.newNode n).2).nth s.nodes.length = n := by
  simp [RState.newNode, RState.nth, List.getD_eq_getElem?_getD,
    List.getElem?_concat_length]

theorem newNode_currentNode (s : RState) (n : RNode) :
    ((s.newNode n).2).currentNode = s.currentNode := rfl

theorem newNode_document (s : RState) (n : RNode) :
    ((s.newNode n).2).document = s.document := rfl

theorem newNode_levelToElem (s : RState) (n : RNode) :
    ((s.newNode n).2).levelToElem = s.levelToElem := rfl

theorem newNode_footnotes (s : RState) (n : RNode) :
    ((s.newNode n).2).footnotes = s.footnotes := rfl

theorem newNode_runCalls (s : RState) (n : RNode) :
    ((s.newNode n).2).runCalls = s.runCalls := rfl

theorem appendChild_currentNode (s : RState) (p c : Nat) :
    (s.appendChild p c).currentNode = s.currentNode := rfl

theorem appendChild_document (s : RState) (p c : Nat) :
    (s.appendChild p c).document = s.document := rfl

theorem appendChild_levelToElem (s : RState) (p c : Nat) :
    (s.appendChild p c).levelToElem = s.levelToElem := rfl

theorem appendChild_footnotes (s : RState) (p c : Nat) :
    (s.appendChild p c).footnotes = s.footnotes := rfl

theorem appendChild_runCalls (s : RState) (p c : Nat) :
    (s.appendChild p c).runCalls = s.runCalls := rfl

theorem appendChild_length (s : RState) (p c : Nat) :
    (s.appendChild p c).nodes.length = s.nodes.length := by
  simp only [RState.appendChild]
  split <;> split <;> simp [List.length_set]

theorem appendChild_nth_other (s : RState) (p c j : Nat) (hjp : j ≠ p) (hjc : j ≠ c) :
    (s.appendChild p c).nth j = s.nth j := by
  simp only [RState.appendChild, RState.nth]
  split <;> split <;>
    simp_all [List.getD_eq_getElem?_getD,
      List.getElem?_set_ne (Ne.symm hjc), List.getElem?_set_ne (Ne.symm hjp)]

theorem appendChild_nth_parent (s : RState) (p c : Nat)
    (hp : p < s.nodes.length) (hpc : p ≠ c) :
    (s.appendChild p c).nth p = (s.nth p).addChild c := by
  have hget : s.nodes[p]? = some (s.nth p) := nth_get s p hp
  cases hcq : s.nodes[c]? with
  | none =>
    simp only [RState.appendChild, hcq, hget]
    show (s.nodes.set p ((s.nth p).addChild c)).getD p default = (s.nth p).addChild c
    rw [List.getD_eq_getElem?_getD, List.getElem?_set_eq_of_lt ((s.nth p).addChild c) hp]
    rfl
  | some nc =>
    have h1 : (s.nodes.set c (nc.withParent p))[p]? = some (s.nth p) := by
      rw [List.getElem?_set_ne (Ne.symm hpc), hget]
    have hplen : p < (s.nodes.set c (nc.withParent p)).length := by
      simpa [List.length_set] using hp
    simp only [RState.appendChild, hcq, h1]
    show ((s.nodes.set c (nc.withParent p)).set p ((s.nth p).addChild c)).getD p default =
      (s.nth p).addChild c
    rw [List.getD_eq_getElem?_getD,
      List.getElem?_set_eq_of_lt ((s.nth p).addChild c) hplen]
    rfl

theorem appendChild_nth_child (s : RState) (p c : Nat)
    (hc : c < s.nodes.length) (hpc : p ≠ c) :
    (s.appendChild p c).nth c = (s.nth c).withParent p := by
  have hget : s.nodes[c]? = some (s.nth c) := nth_get s c hc
  have hset : (s.nodes.set c ((s.nth c).withParent p))[c]? =
      some ((s.nth c).withParent p) :=
    List.getElem?_set_eq_of_lt ((s.nth c).withParent p) hc
  cases hpq : (s.nodes.set c ((s.nth c).withParent p))[p]? with
  | none =>
    simp only [RState.appendChild, hget, hpq]
    show (s.nodes.set c ((s.nth c).withParent p)).getD c default = (s.nth c).withParent p
    rw [List.getD_eq_getElem?_getD, hset]
    rfl
  | some np =>
    simp only [RState.appendChild, hget, hpq]
    show ((s.nodes.set c ((s.nth c).withParent p)).set p (np.addChild c)).getD c default =
      (s.nth c).withParent p
    rw [List.getD_eq_getElem?_getD, List.getElem?_set_ne hpc, hset]
    rfl

/-! ### Frame lemmas for inline text rendering -/

theorem addChildren_nil (n : RNode) : n.addChildren [] = n := by
  simp [RNode.addChildren]

theorem addChildren_addChildren (n : RNode) (a b : List Nat) :
    (n.addChildren a).addChildren b = n.addChildren (a ++ b) := by
  simp [RNode.addChildren]

theorem addChild_eq_addChildren (n : RNode) (c : Nat) :
    n.addChild c = n.addChildren [c] := rfl

theorem inlineExtends_refl (s : RState) : InlineExtends s s :=
  ⟨rfl, rfl, rfl, rfl, rfl, Nat.le_refl _, fun _ _ _ => rfl,
    ⟨[], (addChildren_nil _).symm⟩⟩

theorem inlineExtends_trans (s1 s2 s3 : RState)
    (h12 : InlineExtends s1 s2) (h23 : InlineExtends s2 s3) : InlineExtends s1 s3 := by
  obtain ⟨hc, hd, hl, hf, hr, hlen, hoth, ids1, hcur⟩ := h12
  obtain ⟨hc', hd', hl', hf', hr', hlen', hoth', ids2, hcur'⟩ := h23
  refine ⟨hc'.trans hc, hd'.trans hd, hl'.trans hl, hf'.trans hf, hr'.trans hr,
    Nat.le_trans hlen hlen', ?_, ⟨ids1 ++ ids2, ?_⟩⟩
  · intro j hj hne
    rw [hoth' j (Nat.lt_of_lt_of_le hj hlen) (by rw [hc]; exact hne)]
    exact hoth j hj hne
  · rw [hc] at hcur'
    rw [hcur', hcur, addChildren_addChildren]

theorem render_rawText_frame (env : Env) (content : String) (s : RState)
    (hcur : s.currentNode < s.nodes.length) :
    (render env (.rawText content) s).2 = none ∧
      InlineExtends s (render env (.rawText content) s).1 := by
  have hres : render env (.rawText content) s =
      (((s.newNode { kind := .text, text := content }).2).appendChild
        s.currentNode s.nodes.length, none) := rfl
  rw [hres]
  refine ⟨rfl, rfl, rfl, rfl, rfl, rfl, ?_, ?_, ?_⟩
  · rw [appendChild_length, newNode_length]
    exact Nat.le_succ _
  · intro j hj hne
    rw [appendChild_nth_other _ _ _ _ hne (Nat.ne_of_lt hj),
      newNode_nth_lt _ _ _ hj]
  · refine ⟨[s.nodes.length], ?_⟩
    have h1 : s.currentNode <
        ((s.newNode { kind := .text, text := content }).2).nodes.length := by
      rw [newNode_length]
      exact Nat.lt_succ_of_lt hcur
    rw [appendChild_nth_parent _ _ _ h1 (Nat.ne_of_lt hcur),
      newNode_nth_lt _ _ _ hcur, addChild_eq_addChildren]

theorem renderChildren_rawTexts (env : Env) (texts : List String) :
    ∀ s : RState, s.currentNode < s.nodes.length →
      (renderChildren env (texts.map Token.rawText) s).2 = none ∧
        InlineExtends s (renderChildren env (texts.map Token.rawText) s).1 := by
  induction texts with
  | nil =>
    intro s _
    exact ⟨rfl, inlineExtends_refl s⟩
  | cons t ts ih =>
    intro s h
    obtain ⟨e1, hex1⟩ := render_rawText_frame env t s h
    have hpair : render env (.rawText t) s = ((render env (.rawText t) s).1, none) := by
      rw [Prod.ext_iff]
      exact ⟨rfl, e1⟩
    have hcur1 : (render env (.rawText t) s).1.currentNode <
        (render env (.rawText t) s).1.nodes.length := by
      rw [hex1.1]
      exact Nat.lt_of_lt_of_le h hex1.2.2.2.2.2.1
    obtain ⟨e2, hex2⟩ := ih (render env (.rawText t) s).1 hcur1
    constructor
    · rw [List.map_cons]
      show (match render env (.rawText t) s with
        | (s1, some e) => (s1, some e)
        | (s1, none) => renderChildren env (ts.map Token.rawText) s1).2 = none
      rw [hpair]
      exact e2
    · rw [List.map_cons]
      show InlineExtends s (match render env (.rawText t) s with
        | (s1, some e) => (s1, some e)
        | (s1, none) => renderChildren env (ts.map Token.rawText) s1).1
      rw [hpair]
      exact inlineExtends_trans _ _ _ hex1 hex2

/-! ### Insertion-point restoration of the container handlers -/

theorem restores_paragraph (env : Env) (ln : Nat) (cs : List Token) :
    RestoresCursor env (.paragraph ln cs) := by
  intro s s' h
  simp only [render] at h
  split at h
  · simp at h
  · rw [Prod.mk.injEq] at h
    rw [← h.1]

theorem restores_strong (env : Env) (cs : List Token) :
    RestoresCursor env (.strong cs) := by
  intro s s' h
  simp only [render] at h
  split at h
  · simp at h
  · rw [Prod.mk.injEq] at h
    rw [← h.1]

theorem restores_emphasis (env : Env) (cs : List Token) :
    RestoresCursor env (.emphasis cs) := by
  intro s s' h
  simp only [render] at h
  split at h
  · simp at h
  · rw [Prod.mk.injEq] at h
    rw [← h.1]

theorem restores_quote (env : Env) (ln : Nat) (cs : List Token) :
    RestoresCursor env (.quote ln cs) := by
  intro s s' h
  simp only [render] at h
  split at h
  · simp at h
  · rw [Prod.mk.injEq] at h
    rw [← h.1]

theorem restores_list (env : Env) (st : Option Nat) (cs : List Token) :
    RestoresCursor env (.list st cs) := by
  intro s s' h
  simp only [render] at h
  split at h
  · simp at h
  · rw [Prod.mk.injEq] at h
    rw [← h.1]

theorem restores_listItem (env : Env) (cs : List Token) :
    RestoresCursor env (.listItem cs) := by
  intro s s' h
  simp only [render] at h
  split at h
  · simp at h
  · rw [Prod.mk.injEq] at h
    rw [← h.1]

theorem restores_link (env : Env) (target title : String) (cs : List Token) :
    RestoresCursor env (.link target title cs) := by
  intro s s' h
  simp only [render] at h
  split at h <;> split at h
  · simp at h
  · rw [Prod.mk.injEq] at h
    rw [← h.1]
  · simp at h
  · rw [Prod.mk.injEq] at h
    rw [← h.1]

theorem restores_image (env : Env) (src : String) (cs : List Token) :
    RestoresCursor env (.image src cs) := by
  intro s s' h
  simp only [render] at h
  split at h
  · simp at h
  · rw [Prod.mk.injEq] at h
    rw [← h.1]

/-! ### Heading rendering: elimination lemmas -/

theorem headingPop_nodes (s : RState) (L : Nat) : (headingPop s L).nodes = s.nodes := by
  unfold headingPop
  split
  · split <;> rfl
  · rfl

theorem headingPop_levelToElem (s : RState) (L : Nat) :
    (headingPop s L).levelToElem = s.levelToElem := by
  unfold headingPop
  split
  · split <;> rfl
  · rfl

theorem headingPop_document (s : RState) (L : Nat) :
    (headingPop s L).document = s.document := by
  unfold headingPop
  split
  · split <;> rfl
  · rfl

theorem headingPop_footnotes (s : RState) (L : Nat) :
    (headingPop s L).footnotes = s.footnotes := by
  unfold headingPop
  split
  · split <;> rfl
  · rfl

theorem headingPop_runCalls (s : RState) (L : Nat) :
    (headingPop s L).runCalls = s.runCalls := by
  unfold headingPop
  split
  · split <;> rfl
  · rfl

theorem nth_congr (s t : RState) (h : s.nodes = t.nodes) (j : Nat) :
    s.nth j = t.nth j := by
  simp [RState.nth, h]

theorem addSection_ok_elim (s : RState) (sec L : Nat) (s4 : RState)
    (h : addSection s sec L = (s4, none)) :
    ∃ par, s.levelToElem.lookup
        (((s.levelToElem.map Prod.fst).filter (· < L)).foldl max 0) = some par ∧
      s4.nodes = (s.appendChild par sec).nodes ∧
      s4.levelToElem = ((L, sec) ::
        s.levelToElem.filter (fun p => !(p.1 = L))).filter (fun p => p.1 ≤ L) ∧
      s4.currentNode = s.currentNode ∧
      s4.document = s.document ∧
      s4.footnotes = s.footnotes ∧
      s4.runCalls = s.runCalls := by
  unfold addSection at h
  simp only [] at h
  split at h
  · simp at h
  · rename_i k ks hkeys
    split at h
    · simp at h
    · rename_i par hpar
      rw [← hkeys] at hpar
      refine ⟨par, hpar, ?_⟩
      rw [Prod.mk.injEq] at h
      rw [← h.1]
      exact ⟨rfl, rfl, rfl, rfl, rfl, rfl⟩

theorem addChildren_kind (n : RNode) (cs : List Nat) : (n.addChildren cs).kind = n.kind := rfl

theorem addChildren_parent (n : RNode) (cs : List Nat) :
    (n.addChildren cs).parent = n.parent := rfl

theorem addChildren_level (n : RNode) (cs : List Nat) :
    (n.addChildren cs).level = n.level := rfl

theorem addChild_kind (n : RNode) (c : Nat) : (n.addChild c).kind = n.kind := rfl

theorem addChild_parent (n : RNode) (c : Nat) : (n.addChild c).parent = n.parent := rfl

theorem addChild_level (n : RNode) (c : Nat) : (n.addChild c).level = n.level := rfl

theorem withParent_kind (n : RNode) (p : Nat) : (n.withParent p).kind = n.kind := rfl

theorem withParent_parent (n : RNode) (p : Nat) :
    (n.withParent p).parent = some p := rfl

theorem withParent_level (n : RNode) (p : Nat) : (n.withParent p).level = n.level := rfl

theorem withParent_children (n : RNode) (p : Nat) :
    (n.withParent p).children = n.children := rfl

theorem nth_set_currentNode (s : RState) (cur j : Nat) :
    ({ s with currentNode := cur } : RState).nth j = s.nth j := rfl

theorem headingSetup_length (s : RState) (L ln : Nat) :
    (headingSetup s L ln).nodes.length = s.nodes.length + 2 := by
  show ((((headingPop s L).newNode { kind := .title, line := ln }).2.newNode
    { kind := .section, line := ln, level := L }).2.appendChild _ _).nodes.length =
    s.nodes.length + 2
  rw [appendChild_length, newNode_length, newNode_length, headingPop_nodes]

theorem headingSetup_levelToElem (s : RState) (L ln : Nat) :
    (headingSetup s L ln).levelToElem = s.levelToElem := by
  show ((((headingPop s L).newNode { kind := .title, line := ln }).2.newNode
    { kind := .section, line := ln, level := L }).2.appendChild _ _).levelToElem =
    s.levelToElem
  rw [appendChild_levelToElem, newNode_levelToElem, newNode_levelToElem,
    headingPop_levelToElem]

theorem headingSetup_document (s : RState) (L ln : Nat) :
    (headingSetup s L ln).document = s.document := by
  show ((((headingPop s L).newNode { kind := .title, line := ln }).2.newNode
    { kind := .section, line := ln, level := L }).2.appendChild _ _).document = s.document
  rw [appendChild_document, newNode_document, newNode_document, headingPop_document]

/-- Inside `headingSetup` the title node (index `|s.nodes|`) has been created
and appended to the new section (index `|s.nodes| + 1`). -/
theorem headingSetup_nth_title (s : RState) (L ln : Nat) :
    (headingSetup s L ln).nth s.nodes.length =
      RNode.withParent { kind := .title, line := ln } (s.nodes.length + 1) := by
  have hn0 : (headingPop s L).nodes.length = s.nodes.length := by rw [headingPop_nodes]
  have hlen1 : ((headingPop s L).newNode { kind := .title, line := ln }).2.nodes.length
      = s.nodes.length + 1 := by
    rw [newNode_length, hn0]
  unfold headingSetup
  simp only [newNode_fst, hlen1, hn0]
  rw [appendChild_nth_child _ _ _ (by rw [newNode_length, hlen1]; omega) (by omega)]
  rw [newNode_nth_lt _ _ _ (by rw [hlen1]; omega)]
  rw [← hn0, newNode_nth_self]

/-- Inside `headingSetup` the section node (index `|s.nodes| + 1`) carries the
ghost level and the title as single child. -/
theorem headingSetup_nth_section (s : RState) (L ln : Nat) :
    (headingSetup s L ln).nth (s.nodes.length + 1) =
      RNode.addChild { kind := .section, line := ln, level := L } s.nodes.length := by
  have hn0 : (headingPop s L).nodes.length = s.nodes.length := by rw [headingPop_nodes]
  have hlen1 : ((headingPop s L).newNode { kind := .title, line := ln }).2.nodes.length
      = s.nodes.length + 1 := by
    rw [newNode_length, hn0]
  unfold headingSetup
  simp only [newNode_fst, hlen1, hn0]
  rw [appendChild_nth_parent _ _ _ (by rw [newNode_length, hlen1]; omega) (by omega)]
  rw [← hlen1, newNode_nth_self]

/-- Nodes below `|s.nodes|` are untouched by `headingSetup`. -/
theorem headingSetup_nth_old (s : RState) (L ln : Nat) (j : Nat)
    (hj : j < s.nodes.length) :
    (headingSetup s L ln).nth j = s.nth j := by
  unfold headingSetup
  have hn0 : (headingPop s L).nodes.length = s.nodes.length := by rw [headingPop_nodes]
  simp only [newNode_fst, newNode_length, hn0]
  rw [appendChild_nth_other _ _ _ _ (by omega) (by omega),
    newNode_nth_lt _ _ _ (by rw [newNode_length, hn0]; omega),
    newNode_nth_lt _ _ _ (by rw [hn0]; omega)]
  show (headingPop s L).nth j = s.nth j
  unfold headingPop
  split
  · split <;> rfl
  · rfl

/-- Unfolding of `render` on a heading token, phrased through `headingSetup`. -/
theorem render_heading_unfold (env : Env) (L ln : Nat) (cs : List Token) (s : RState) :
    render env (.heading L ln cs) s =
      (match addSection (headingSetup s L ln) (s.nodes.length + 1) L with
       | (s4, some e) => (s4, some e)
       | (s4, none) =>
         match renderChildren env cs { s4 with currentNode := s.nodes.length } with
         | (s5, some e) => (s5, some e)
         | (s5, none) =>
           if (s5.nth s5.currentNode).kind = .title then
             match (s5.nth s5.currentNode).parent with
             | some secId => ({ s5 with currentNode := secId }, none)
             | none => (s5, some .attributeError)
           else (s5, some .assertionError)) := by
  have hn0 : (headingPop s L).nodes.length = s.nodes.length := by rw [headingPop_nodes]
  simp only [render, headingSetup, RState.newNode, List.length_append,
    List.length_cons, List.length_nil, hn0]

/-- Rendering a heading whose children are raw text: when `_add_section`
succeeds, the handler renders the title texts into the fresh title node and
leaves the insertion point at the fresh section node. -/
theorem render_heading_rawTexts (env : Env) (L ln : Nat) (texts : List String)
    (s s4 : RState)
    (h4 : addSection (headingSetup s L ln) (s.nodes.length + 1) L = (s4, none)) :
    render env (.heading L ln (texts.map Token.rawText)) s =
      ({ (renderChildren env (texts.map Token.rawText)
            { s4 with currentNode := s.nodes.length }).1 with
          currentNode := s.nodes.length + 1 }, none) := by
  obtain ⟨par, hpar, hnodes, hstack, hcur4, hdoc4, hfoot4, hrun4⟩ :=
    addSection_ok_elim _ _ _ _ h4
  have hlen4 : s4.nodes.length = s.nodes.length + 2 := by
    rw [show s4.nodes.length =
        ((headingSetup s L ln).appendChild par (s.nodes.length + 1)).nodes.length from
      congrArg List.length hnodes]
    rw [appendChild_length, headingSetup_length]
  have hntitle : (s4.nth s.nodes.length).kind = .title ∧
      (s4.nth s.nodes.length).parent = some (s.nodes.length + 1) := by
    have hbase : s4.nth s.nodes.length =
        (headingSetup s L ln).nth s.nodes.length ∨
        s4.nth s.nodes.length =
          ((headingSetup s L ln).nth s.nodes.length).addChild (s.nodes.length + 1) := by
      by_cases hpn : par = s.nodes.length
      · right
        rw [nth_congr s4 ((headingSetup s L ln).appendChild par (s.nodes.length + 1))
          hnodes]
        subst hpn
        rw [appendChild_nth_parent _ _ _ (by rw [headingSetup_length]; omega) (by omega)]
      · left
        rw [nth_congr s4 ((headingSetup s L ln).appendChild par (s.nodes.length + 1))
          hnodes]
        rw [appendChild_nth_other _ _ _ _ (fun he => hpn he.symm) (by omega)]
    rcases hbase with hb | hb <;> rw [hb, headingSetup_nth_title] <;> exact ⟨rfl, rfl⟩
  have hcurlt : ({ s4 with currentNode := s.nodes.length } : RState).currentNode <
      ({ s4 with currentNode := s.nodes.length } : RState).nodes.length := by
    show s.nodes.length < s4.nodes.length
    omega
  obtain ⟨e5, hex5⟩ :=
    renderChildren_rawTexts env texts { s4 with currentNode := s.nodes.length } hcurlt
  set S5 := (renderChildren env (texts.map Token.rawText)
    { s4 with currentNode := s.nodes.length }).1 with hS5def
  have hpair : renderChildren env (texts.map Token.rawText)
      { s4 with currentNode := s.nodes.length } = (S5, none) := by
    rw [hS5def, Prod.ext_iff]
    exact ⟨rfl, e5⟩
  have hcur5 : S5.currentNode = s.nodes.length := hex5.1
  obtain ⟨ids, hnth5⟩ := hex5.2.2.2.2.2.2.2
  have hnth5' : S5.nth s.nodes.length = (s4.nth s.nodes.length).addChildren ids := hnth5
  have hkind : (S5.nth S5.currentNode).kind = .title := by
    rw [hcur5, hnth5', addChildren_kind]
    exact hntitle.1
  have hpar5 : (S5.nth S5.currentNode).parent = some (s.nodes.length + 1) := by
    rw [hcur5, hnth5', addChildren_parent]
    exact hntitle.2
  rw [render_heading_unfold, h4]
  show (match renderChildren env (texts.map Token.rawText)
      { s4 with currentNode := s.nodes.length } with
    | (s5, some e) => (s5, some e)
    | (s5, none) =>
      if (s5.nth s5.currentNode).kind = .title then
        match (s5.nth s5.currentNode).parent with
        | some secId => ({ s5 with currentNode := secId }, none)
        | none => (s5, some RErr.attributeError)
      else (s5, some RErr.assertionError))
    = ({ S5 with currentNode := s.nodes.length + 1 }, none)
  rw [hpair]
  show (if (S5.nth S5.currentNode).kind = .title then
      match (S5.nth S5.currentNode).parent with
      | some secId => ({ S5 with currentNode := secId }, none)
      | none => (S5, some RErr.attributeError)
    else (S5, some RErr.assertionError)) = ({ S5 with currentNode := s.nodes.length + 1 }, none)
  rw [if_pos hkind, hpar5]

/-- C3, counterexample to the claim as stated: `render_heading` does not
restore the insertion point — rendering a level-1 heading on a fresh document
succeeds but moves the insertion point from the document (index 0) to the new
section (index 2). -/
theorem heading_does_not_restore_cursor_cex :
    (render envEx (Token.heading 1 0 [Token.rawText "t"]) initState).2 = none ∧
      initState.currentNode = 0 ∧
      (render envEx (Token.heading 1 0 [Token.rawText "t"]) initState).1.currentNode = 2 := by
  decide

/-- C3 (corrected): the paragraph, strong, emphasis, quote, list, list-item,
link and image handlers restore the insertion point on every successful
return; `render_heading` instead deliberately leaves the insertion point at
the newly created section node (arena index `|s.nodes| + 1`). -/
theorem handlers_restore_insertion_point (env : Env) :
    (∀ ln cs, RestoresCursor env (.paragraph ln cs)) ∧
    (∀ cs, RestoresCursor env (.strong cs)) ∧
    (∀ cs, RestoresCursor env (.emphasis cs)) ∧
    (∀ ln cs, RestoresCursor env (.quote ln cs)) ∧
    (∀ st cs, RestoresCursor env (.list st cs)) ∧
    (∀ cs, RestoresCursor env (.listItem cs)) ∧
    (∀ target title cs, RestoresCursor env (.link target title cs)) ∧
    (∀ src cs, RestoresCursor env (.image src cs)) ∧
    (∀ (L ln : Nat) (texts : List String) (s r : RState),
      render env (.heading L ln (texts.map Token.rawText)) s = (r, none) →
      r.currentNode = s.nodes.length + 1) := by
  refine ⟨restores_paragraph env, restores_strong env, restores_emphasis env,
    restores_quote env, restores_list env, restores_listItem env,
    restores_link env, restores_image env, ?_⟩
  intro L ln texts s r h
  cases h4 : addSection (headingSetup s L ln) (s.nodes.length + 1) L with
  | mk s4 e =>
    cases e with
    | some err =>
      rw [render_heading_unfold, h4] at h
      simp at h
    | none =>
      rw [render_heading_rawTexts env L ln texts s s4 h4] at h
      rw [Prod.mk.injEq] at h
      rw [← h.1]

/-- C3 witness: concrete instances of the corrected statement. -/
theorem handlers_restore_insertion_point_witness :
    (render envEx (Token.paragraph 0 [Token.rawText "x"]) initState).1.currentNode
        = initState.currentNode ∧
    (render envEx (Token.heading 1 0 ([ "t" ].map Token.rawText)) initState).1.currentNode
        = initState.nodes.length + 1 := by
  constructor
  · exact (handlers_restore_insertion_point envEx).1 0 [Token.rawText "x"] initState
      (render envEx (Token.paragraph 0 [Token.rawText "x"]) initState).1 (by decide)
  · exact (handlers_restore_insertion_point envEx).2.2.2.2.2.2.2.2 1 0 ["t"] initState
      (render envEx (Token.heading 1 0 (["t"].map Token.rawText)) initState).1 (by decide)

/-! ### C5: out-of-scope token kinds and footnotes -/

/-- C5, counterexample to the claim as stated: rendering a document whose
footnote mapping is nonempty does not fail — the footnotes are silently
absorbed into the accumulator and rendering returns without error. -/
theorem document_footnotes_do_not_fail_cex :
    (render envEx (Token.document ["note"] []) initState).2 = none ∧
      (render envEx (Token.document ["note"] []) initState).1.footnotes = ["note"] := by
  decide

/-- C5 (corrected): table, table-row, table-cell and auto-link tokens fail
loudly with a fatal NotImplementedError that propagates (nothing is silently
dropped), but a document carrying footnotes renders without error:
`render_document` absorbs the footnotes into the accumulator and renders the
children normally. -/
theorem unimplemented_tokens_fail_loudly (env : Env) :
    (∀ s, render env .table s = (s, some .notImplemented)) ∧
    (∀ s, render env .tableRow s = (s, some .notImplemented)) ∧
    (∀ s, render env .tableCell s = (s, some .notImplemented)) ∧
    (∀ s, render env .autoLink s = (s, some .notImplemented)) ∧
    (∀ s fns, render env (.document fns []) s =
      ({ s with footnotes := s.footnotes ++ fns }, none)) :=
  ⟨fun _ => rfl, fun _ => rfl, fun _ => rfl, fun _ => rfl, fun _ _ => rfl⟩

/-! ### C9: plain block code -/

/-- C9: a block-code token whose language is not brace-delimited renders as
exactly one new node — a literal_block carrying the token's language (also
when empty) and the raw content, appended as a child of the insertion point —
with the insertion point and the directive run trace unchanged and the
directive machinery never consulted (the result does not depend on the
environment). -/
theorem block_code_literal (env : Env) (language content arguments : String)
    (line : Nat) (s : RState)
    (hnb : ¬(language.data.head? = some '{' ∧ language.data.getLast? = some '}'))
    (hcur : s.currentNode < s.nodes.length) :
    (render env (.blockCode language content arguments line) s).2 = none ∧
    (render env (.blockCode language content arguments line) s).1.nodes.length
      = s.nodes.length + 1 ∧
    (render env (.blockCode language content arguments line) s).1.nth s.nodes.length
      = RNode.withParent { kind := .literalBlock, text := content, language := language }
          s.currentNode ∧
    (render env (.blockCode language content arguments line) s).1.nth s.currentNode
      = (s.nth s.currentNode).addChild s.nodes.length ∧
    (∀ j, j < s.nodes.length → j ≠ s.currentNode →
      (render env (.blockCode language content arguments line) s).1.nth j = s.nth j) ∧
    (render env (.blockCode language content arguments line) s).1.currentNode
      = s.currentNode ∧
    (render env (.blockCode language content arguments line) s).1.runCalls = s.runCalls ∧
    (∀ env' : Env, render env (.blockCode language content arguments line) s =
      render env' (.blockCode language content arguments line) s) := by
  have hres : ∀ e : Env, render e (.blockCode language content arguments line) s =
      (((s.newNode { kind := .literalBlock, text := content, language := language }).2).appendChild
        s.currentNode s.nodes.length, none) := by
    intro e
    simp only [render]
    rw [if_neg hnb]
    rfl
  have hlt1 : s.currentNode <
      ((s.newNode { kind := .literalBlock, text := content, language := language }).2).nodes.length := by
    rw [newNode_length]
    omega
  refine ⟨by rw [hres env], ?_, ?_, ?_, ?_, ?_, ?_, fun env' => (hres env).trans (hres env').symm⟩
  · rw [hres env]
    show ((s.newNode _).2.appendChild _ _).nodes.length = _
    rw [appendChild_length, newNode_length]
  · rw [hres env]
    show ((s.newNode _).2.appendChild _ _).nth s.nodes.length = _
    rw [appendChild_nth_child _ _ _ (by rw [newNode_length]; omega) (Nat.ne_of_lt hcur),
      newNode_nth_self]
  · rw [hres env]
    show ((s.newNode _).2.appendChild _ _).nth s.currentNode = _
    rw [appendChild_nth_parent _ _ _ hlt1 (Nat.ne_of_lt hcur),
      newNode_nth_lt _ _ _ hcur]
  · intro j hj hne
    rw [hres env]
    show ((s.newNode _).2.appendChild _ _).nth j = _
    rw [appendChild_nth_other _ _ _ _ hne (Nat.ne_of_lt hj), newNode_nth_lt _ _ _ hj]
  · rw [hres env]
    rfl
  · rw [hres env]
    rfl

/-- C9 witness: the two language cases from the spec, `python` and the empty
language, on a fresh document. -/
theorem block_code_literal_witness :
    (render envEx (Token.blockCode "python" "foo" "" 0) initState).2 = none ∧
    (render envEx (Token.blockCode "python" "foo" "" 0) initState).1.nth 1
      = RNode.withParent { kind := .literalBlock, text := "foo", language := "python" } 0 ∧
    (render envEx (Token.blockCode "" "foo" "" 0) initState).2 = none ∧
    (render envEx (Token.blockCode "" "foo" "" 0) initState).1.nth 1
      = RNode.withParent { kind := .literalBlock, text := "foo", language := "" } 0 := by
  refine ⟨(block_code_literal envEx "python" "foo" "" 0 initState (by decide) (by decide)).1,
    (block_code_literal envEx "python" "foo" "" 0 initState (by decide) (by decide)).2.2.1,
    (block_code_literal envEx "" "foo" "" 0 initState (by decide) (by decide)).1,
    (block_code_literal envEx "" "foo" "" 0 initState (by decide) (by decide)).2.2.1⟩

/-! ### C2: directive argument arity -/

theorem parse_directive_arguments_underflow (d : Directive) (arg_text : String)
    (hlt : (pySplitWsL arg_text.data).length < d.required_arguments) :
    parse_directive_arguments d arg_text =
      .error (toString d.required_arguments ++ " argument(s) required, " ++
        toString (pySplitWsL arg_text.data).length ++ " supplied") := by
  unfold parse_directive_arguments
  simp only [List.length_map]
  rw [if_pos hlt]

/-- Resolution and argument-validation prefix of `render_directive`: with the
directive resolved and too few positional arguments, the `RuntimeError` from
`parse_directive_arguments` is re-raised with the state untouched. -/
theorem renderDirective_underflow (env : Env) (language content arguments : String)
    (line : Nat) (s : RState) (d : Directive) (msgs : List RNode)
    (opts : List (String × String))
    (hopt : (directiveOptions env content).1 = .ok opts)
    (hlook : env.lookupDirective (⟨(language.data.drop 1).dropLast⟩ : String)
      = (some d, msgs))
    (hlt : (pySplitWsL arguments.data).length < d.required_arguments) :
    renderDirective env language content arguments line s =
      (s, some (.runtimeError (toString d.required_arguments ++
        " argument(s) required, " ++ toString (pySplitWsL arguments.data).length ++
        " supplied"))) := by
  unfold renderDirective
  simp only []
  rw [hopt]
  show (match env.lookupDirective (⟨(language.data.drop 1).dropLast⟩ : String) with
    | (none, messages) => (spliceNewNodes s messages, none)
    | (some directive_class, _) =>
      match parse_directive_arguments directive_class arguments with
      | .error msg => (s, some (RErr.runtimeError msg))
      | .ok args => runDirectivePhase directive_class
          { name := (⟨(language.data.drop 1).dropLast⟩ : String), arguments := args,
            options := opts,
            content := pySplitlines (directiveOptions env content).2, lineno := line,
            contentOffset := 0, blockText := (directiveOptions env content).2 }
          (directiveOptions env content).2 line s) = _
  rw [hlook]
  show (match parse_directive_arguments d arguments with
    | .error msg => (s, some (RErr.runtimeError msg))
    | .ok args => runDirectivePhase d
        { name := (⟨(language.data.drop 1).dropLast⟩ : String), arguments := args,
          options := opts,
          content := pySplitlines (directiveOptions env content).2, lineno := line,
          contentOffset := 0, blockText := (directiveOptions env content).2 }
        (directiveOptions env content).2 line s)
    = (s, some (RErr.runtimeError (toString d.required_arguments ++
        " argument(s) required, " ++ toString (pySplitWsL arguments.data).length ++
        " supplied")))
  rw [parse_directive_arguments_underflow d arguments hlt]

/-- C2, counterexample to the claim as stated: the arity failure is fatal —
rendering `\x7bnote\x7d` (a directive requiring one argument) with no
arguments returns the re-raised RuntimeError and produces no diagnostic node
(the state is unchanged). -/
theorem directive_arity_raises_cex :
    render envC2 (Token.blockCode "\x7bnote\x7d" "" "" 0) initState =
      (initState, some (RErr.runtimeError "1 argument(s) required, 0 supplied")) := by
  decide

/-- C2 (corrected): a directive invocation whose options phase does not raise
and with fewer positional arguments than the resolved directive's
required-argument count never reaches the directive's `run` method — the
result state is exactly the input state, so in particular the ghost run trace
is unchanged for every possible `run` — but the failure is fatal: the
RuntimeError propagates out of `render_directive` instead of being converted
into a diagnostic node. -/
theorem directive_arity_error_fatal (env : Env) (language content arguments : String)
    (line : Nat) (s : RState) (d : Directive) (msgs : List RNode)
    (opts : List (String × String))
    (hopt : (directiveOptions env content).1 = .ok opts)
    (hlook : env.lookupDirective (⟨(language.data.drop 1).dropLast⟩ : String)
      = (some d, msgs))
    (hlt : (pySplitWsL arguments.data).length < d.required_arguments) :
    renderDirective env language content arguments line s =
      (s, some (.runtimeError (toString d.required_arguments ++
        " argument(s) required, " ++ toString (pySplitWsL arguments.data).length ++
        " supplied"))) ∧
    (renderDirective env language content arguments line s).1.runCalls = s.runCalls :=
  ⟨renderDirective_underflow env language content arguments line s d msgs opts
      hopt hlook hlt,
    by rw [renderDirective_underflow env language content arguments line s d msgs opts
      hopt hlook hlt]⟩

/-- C2 witness: concrete instance of the corrected statement. -/
theorem directive_arity_error_fatal_witness :
    renderDirective envC2 "\x7bnote\x7d" "" "" 0 initState =
      (initState, some (RErr.runtimeError "1 argument(s) required, 0 supplied")) ∧
    (renderDirective envC2 "\x7bnote\x7d" "" "" 0 initState).1.runCalls
      = initState.runCalls := by
  have h := directive_arity_error_fatal envC2 "\x7bnote\x7d" "" "" 0 initState dirNote []
    [] rfl rfl (by decide)
  exact ⟨h.1.trans (by decide), h.2⟩

/-! ### C8: link classification by scheme and fragment -/

/-- A link with a known scheme and no fragment: the reference is appended
directly (no wrapper). -/
theorem render_link_direct (env : Env) (target title : String) (texts : List String)
    (s : RState)
    (hcfg : env.knownUrlSchemes = none)
    (hcur : s.currentNode < s.nodes.length)
    (hs1 : ¬(urlSchemeFragment target).1 = "")
    (hfrag : (urlSchemeFragment target).2 = "") :
    (render env (.link target title (texts.map Token.rawText)) s).2 = none ∧
    (render env (.link target title (texts.map Token.rawText)) s).1.nth s.currentNode
      = (s.nth s.currentNode).addChild s.nodes.length ∧
    ((render env (.link target title (texts.map Token.rawText)) s).1.nth
        s.nodes.length).kind = .reference ∧
    ((render env (.link target title (texts.map Token.rawText)) s).1.nth
        s.nodes.length).refuri = target ∧
    ((render env (.link target title (texts.map Token.rawText)) s).1.nth
        s.nodes.length).parent = some s.currentNode := by
  have hcond : ¬((urlSchemeFragment target).2 = "" ∧
      (!decide ((urlSchemeFragment target).1 = "")) = false) := by
    simp [hs1]
  set refNode : RNode :=
    { kind := .reference, refuri := target,
      titleAttr := if title = "" then none else some title } with hrefdef
  have hunfold : render env (.link target title (texts.map Token.rawText)) s =
      (match renderChildren env (texts.map Token.rawText)
        { ((s.newNode refNode).2.appendChild s.currentNode s.nodes.length) with
          currentNode := s.nodes.length } with
      | (s5, some e) => (s5, some e)
      | (s5, none) => ({ s5 with currentNode := s.currentNode }, none)) := by
    simp only [render, hcfg]
    rw [if_neg hcond]
    rfl
  set s4 : RState := (s.newNode refNode).2.appendChild s.currentNode s.nodes.length
    with hs4def
  have hlen4 : s4.nodes.length = s.nodes.length + 1 := by
    rw [hs4def, appendChild_length, newNode_length]
  have hcurlt : ({ s4 with currentNode := s.nodes.length } : RState).currentNode <
      ({ s4 with currentNode := s.nodes.length } : RState).nodes.length := by
    show s.nodes.length < s4.nodes.length
    omega
  obtain ⟨e5, hex5⟩ :=
    renderChildren_rawTexts env texts { s4 with currentNode := s.nodes.length } hcurlt
  set S5 := (renderChildren env (texts.map Token.rawText)
    { s4 with currentNode := s.nodes.length }).1 with hS5def
  have hpair : renderChildren env (texts.map Token.rawText)
      { s4 with currentNode := s.nodes.length } = (S5, none) := by
    rw [hS5def, Prod.ext_iff]
    exact ⟨rfl, e5⟩
  have hres : render env (.link target title (texts.map Token.rawText)) s =
      ({ S5 with currentNode := s.currentNode }, none) := by
    rw [hunfold, hpair]
  have hs4cur : s4.nth s.currentNode = (s.nth s.currentNode).addChild s.nodes.length := by
    rw [hs4def]
    rw [appendChild_nth_parent _ _ _ (by rw [newNode_length]; omega) (Nat.ne_of_lt hcur)]
    rw [newNode_nth_lt _ _ _ hcur]
  have hs4ref : s4.nth s.nodes.length = refNode.withParent s.currentNode := by
    rw [hs4def]
    rw [appendChild_nth_child _ _ _ (by rw [newNode_length]; omega) (Nat.ne_of_lt hcur)]
    rw [newNode_nth_self]
  have hS5cur : S5.nth s.currentNode = (s.nth s.currentNode).addChild s.nodes.length := by
    have ho := hex5.2.2.2.2.2.2.1 s.currentNode
      (by show s.currentNode < s4.nodes.length; omega) (Nat.ne_of_lt hcur)
    rw [ho]
    exact hs4cur
  obtain ⟨ids, hid⟩ := hex5.2.2.2.2.2.2.2
  have hS5ref : S5.nth s.nodes.length = (refNode.withParent s.currentNode).addChildren ids := by
    have : S5.nth s.nodes.length = (s4.nth s.nodes.length).addChildren ids := hid
    rw [this, hs4ref]
  rw [hres]
  refine ⟨rfl, ?_, ?_, ?_, ?_⟩
  · rw [nth_set_currentNode, hS5cur]
  · rw [nth_set_currentNode, hS5ref]
    rfl
  · rw [nth_set_currentNode, hS5ref]
    rfl
  · rw [nth_set_currentNode, hS5ref]
    rfl

/-- A link with neither scheme nor fragment: the reference is wrapped in a
pending cross-reference tagged `reftype=any` with the unquoted target. -/
theorem render_link_xref (env : Env) (target title : String) (texts : List String)
    (s : RState)
    (hcfg : env.knownUrlSchemes = none)
    (hcur : s.currentNode < s.nodes.length)
    (hs1 : (urlSchemeFragment target).1 = "")
    (hfrag : (urlSchemeFragment target).2 = "") :
    (render env (.link target title (texts.map Token.rawText)) s).2 = none ∧
    (render env (.link target title (texts.map Token.rawText)) s).1.nth s.currentNode
      = (s.nth s.currentNode).addChild (s.nodes.length + 1) ∧
    ((render env (.link target title (texts.map Token.rawText)) s).1.nth
        (s.nodes.length + 1) |>.kind) = .pendingXref ∧
    ((render env (.link target title (texts.map Token.rawText)) s).1.nth
        (s.nodes.length + 1) |>.reftype) = "any" ∧
    ((render env (.link target title (texts.map Token.rawText)) s).1.nth
        (s.nodes.length + 1) |>.reftarget) = (⟨pyUnquoteL target.data⟩ : String) ∧
    ((render env (.link target title (texts.map Token.rawText)) s).1.nth
        (s.nodes.length + 1) |>.children) = [s.nodes.length] ∧
    ((render env (.link target title (texts.map Token.rawText)) s).1.nth
        (s.nodes.length + 1) |>.parent) = some s.currentNode ∧
    ((render env (.link target title (texts.map Token.rawText)) s).1.nth
        s.nodes.length |>.kind) = .reference ∧
    ((render env (.link target title (texts.map Token.rawText)) s).1.nth
        s.nodes.length |>.refuri) = target ∧
    ((render env (.link target title (texts.map Token.rawText)) s).1.nth
        s.nodes.length |>.parent) = some (s.nodes.length + 1) := by
  have hcond : ((urlSchemeFragment target).2 = "" ∧
      (!decide ((urlSchemeFragment target).1 = "")) = false) := by
    simp [hs1, hfrag]
  set refNode : RNode :=
    { kind := .reference, refuri := target,
      titleAttr := if title = "" then none else some title } with hrefdef
  set wrapNode : RNode :=
    { kind := .pendingXref, reftarget := (⟨pyUnquoteL target.data⟩ : String),
      reftype := "any",
      titleAttr := if title = "" then none else some title } with hwrapdef
  have hunfold : render env (.link target title (texts.map Token.rawText)) s =
      (match renderChildren env (texts.map Token.rawText)
        { ((((s.newNode refNode).2.newNode wrapNode).2.appendChild
              (s.newNode refNode).2.nodes.length s.nodes.length).appendChild
            s.currentNode (s.newNode refNode).2.nodes.length) with
          currentNode := s.nodes.length } with
      | (s5, some e) => (s5, some e)
      | (s5, none) => ({ s5 with currentNode := s.currentNode }, none)) := by
    simp only [render, hcfg]
    rw [if_pos hcond]
    rfl
  have hlen1 : (s.newNode refNode).2.nodes.length = s.nodes.length + 1 := by
    rw [newNode_length]
  rw [hlen1] at hunfold
  set s4 : RState := (((s.newNode refNode).2.newNode wrapNode).2.appendChild
      (s.nodes.length + 1) s.nodes.length).appendChild s.currentNode (s.nodes.length + 1)
    with hs4def
  have hlen4 : s4.nodes.length = s.nodes.length + 2 := by
    rw [hs4def, appendChild_length, appendChild_length, newNode_length, newNode_length]
  have hcurlt : ({ s4 with currentNode := s.nodes.length } : RState).currentNode <
      ({ s4 with currentNode := s.nodes.length } : RState).nodes.length := by
    show s.nodes.length < s4.nodes.length
    omega
  obtain ⟨e5, hex5⟩ :=
    renderChildren_rawTexts env texts { s4 with currentNode := s.nodes.length } hcurlt
  set S5 := (renderChildren env (texts.map Token.rawText)
    { s4 with currentNode := s.nodes.length }).1 with hS5def
  have hpair : renderChildren env (texts.map Token.rawText)
      { s4 with currentNode := s.nodes.length } = (S5, none) := by
    rw [hS5def, Prod.ext_iff]
    exact ⟨rfl, e5⟩
  have hres : render env (.link target title (texts.map Token.rawText)) s =
      ({ S5 with currentNode := s.currentNode }, none) := by
    rw [hunfold, hpair]
  have hinlen : ((s.newNode refNode).2.newNode wrapNode).2.nodes.length
      = s.nodes.length + 2 := by
    rw [newNode_length, newNode_length]
  have hs3len : (((s.newNode refNode).2.newNode wrapNode).2.appendChild
      (s.nodes.length + 1) s.nodes.length).nodes.length = s.nodes.length + 2 := by
    rw [appendChild_length, hinlen]
  have hs4cur : s4.nth s.currentNode
      = (s.nth s.currentNode).addChild (s.nodes.length + 1) := by
    rw [hs4def]
    rw [appendChild_nth_parent _ _ _ (by rw [hs3len]; omega) (by omega)]
    rw [appendChild_nth_other _ _ _ _ (by omega) (Nat.ne_of_lt hcur)]
    rw [newNode_nth_lt _ _ _ (by rw [newNode_length]; omega)]
    rw [newNode_nth_lt _ _ _ hcur]
  have hs4wrap : s4.nth (s.nodes.length + 1)
      = (wrapNode.addChild s.nodes.length).withParent s.currentNode := by
    rw [hs4def]
    rw [appendChild_nth_child _ _ _ (by rw [hs3len]; omega) (by omega)]
    rw [appendChild_nth_parent _ _ _ (by rw [hinlen]; omega) (by omega)]
    rw [show (s.newNode refNode).2.newNode wrapNode
        = ((s.newNode refNode).2.newNode wrapNode) from rfl]
    rw [← hlen1, newNode_nth_self]
  have hs4ref : s4.nth s.nodes.length = (refNode.withParent (s.nodes.length + 1)) := by
    rw [hs4def]
    rw [appendChild_nth_other _ _ _ _ (Ne.symm (Nat.ne_of_lt hcur)) (by omega)]
    rw [appendChild_nth_child _ _ _ (by rw [hinlen]; omega) (by omega)]
    rw [newNode_nth_lt _ _ _ (by rw [newNode_length]; omega), newNode_nth_self]
  have hothS5 : ∀ j, j < s.nodes.length + 2 → j ≠ s.nodes.length → S5.nth j = s4.nth j := by
    intro j hj hne
    exact hex5.2.2.2.2.2.2.1 j (by show j < s4.nodes.length; omega) hne
  obtain ⟨ids, hid⟩ := hex5.2.2.2.2.2.2.2
  have hS5ref : S5.nth s.nodes.length
      = (refNode.withParent (s.nodes.length + 1)).addChildren ids := by
    have : S5.nth s.nodes.length = (s4.nth s.nodes.length).addChildren ids := hid
    rw [this, hs4ref]
  have hS5wrap : S5.nth (s.nodes.length + 1)
      = (wrapNode.addChild s.nodes.length).withParent s.currentNode := by
    rw [hothS5 (s.nodes.length + 1) (by omega) (by omega), hs4wrap]
  have hS5cur : S5.nth s.currentNode
      = (s.nth s.currentNode).addChild (s.nodes.length + 1) := by
    rw [hothS5 s.currentNode (by omega) (Nat.ne_of_lt hcur), hs4cur]
  rw [hres]
  refine ⟨rfl, ?_, ?_, ?_, ?_, ?_, ?_, ?_, ?_, ?_⟩ <;>
    simp only [nth_set_currentNode]
  · rw [hS5cur]
  · rw [hS5wrap]
    rfl
  · rw [hS5wrap]
    rfl
  · rw [hS5wrap]
    rfl
  · rw [hS5wrap]
    rfl
  · rw [hS5wrap]
    rfl
  · rw [hS5ref]
    rfl
  · rw [hS5ref]
    rfl
  · rw [hS5ref]
    rfl

/-- C8: for every link token rendered with no known_url_schemes allow-list
configured: a target with a scheme and no fragment produces exactly one
direct reference node (refuri = target) appended under the insertion point,
with no pending-cross-reference wrapper; a target with neither scheme nor
fragment produces a pending-cross-reference node with reftype `any` and
reftarget the URL-unquoted target, whose single child is the reference. -/
theorem link_scheme_classification (env : Env) (target title : String)
    (texts : List String) (s : RState)
    (hcfg : env.knownUrlSchemes = none)
    (hcur : s.currentNode < s.nodes.length) :
    (¬(urlSchemeFragment target).1 = "" → (urlSchemeFragment target).2 = "" →
      (render env (.link target title (texts.map Token.rawText)) s).2 = none ∧
      (render env (.link target title (texts.map Token.rawText)) s).1.nth s.currentNode
        = (s.nth s.currentNode).addChild s.nodes.length ∧
      ((render env (.link target title (texts.map Token.rawText)) s).1.nth
          s.nodes.length).kind = .reference ∧
      ((render env (.link target title (texts.map Token.rawText)) s).1.nth
          s.nodes.length).refuri = target ∧
      ((render env (.link target title (texts.map Token.rawText)) s).1.nth
          s.nodes.length).parent = some s.currentNode) ∧
    ((urlSchemeFragment target).1 = "" → (urlSchemeFragment target).2 = "" →
      (render env (.link target title (texts.map Token.rawText)) s).2 = none ∧
      (render env (.link target title (texts.map Token.rawText)) s).1.nth s.currentNode
        = (s.nth s.currentNode).addChild (s.nodes.length + 1) ∧
      ((render env (.link target title (texts.map Token.rawText)) s).1.nth
          (s.nodes.length + 1)).kind = .pendingXref ∧
      ((render env (.link target title (texts.map Token.rawText)) s).1.nth
          (s.nodes.length + 1)).reftype = "any" ∧
      ((render env (.link target title (texts.map Token.rawText)) s).1.nth
          (s.nodes.length + 1)).reftarget = (⟨pyUnquoteL target.data⟩ : String) ∧
      ((render env (.link target title (texts.map Token.rawText)) s).1.nth
          (s.nodes.length + 1)).children = [s.nodes.length] ∧
      ((render env (.link target title (texts.map Token.rawText)) s).1.nth
          (s.nodes.length + 1)).parent = some s.currentNode ∧
      ((render env (.link target title (texts.map Token.rawText)) s).1.nth
          s.nodes.length).kind = .reference ∧
      ((render env (.link target title (texts.map Token.rawText)) s).1.nth
          s.nodes.length).refuri = target ∧
      ((render env (.link target title (texts.map Token.rawText)) s).1.nth
          s.nodes.length).parent = some (s.nodes.length + 1)) := by
  constructor
  · intro hs1 hfrag
    exact render_link_direct env target title texts s hcfg hcur hs1 hfrag
  · intro hs1 hfrag
    exact render_link_xref env target title texts s hcfg hcur hs1 hfrag

/-- C8 witness: the spec's two examples, `http://example.com` (direct) and
`./page` (pending cross-reference). -/
theorem link_scheme_classification_witness :
    (render envEx (Token.link "http://example.com" ""
      (([] : List String).map Token.rawText)) initState).2 = none ∧
    ((render envEx (Token.link "http://example.com" ""
      (([] : List String).map Token.rawText)) initState).1.nth 1).kind = .reference ∧
    (render envEx (Token.link "./page" ""
      (([] : List String).map Token.rawText)) initState).2 = none ∧
    ((render envEx (Token.link "./page" ""
      (([] : List String).map Token.rawText)) initState).1.nth 2).kind = .pendingXref ∧
    ((render envEx (Token.link "./page" ""
      (([] : List String).map Token.rawText)) initState).1.nth 2).reftarget = "./page" := by
  refine ⟨((link_scheme_classification envEx "http://example.com" "" [] initState rfl
      (by decide)).1 (by decide) (by decide)).1,
    ((link_scheme_classification envEx "http://example.com" "" [] initState rfl
      (by decide)).1 (by decide) (by decide)).2.2.1,
    ((link_scheme_classification envEx "./page" "" [] initState rfl
      (by decide)).2 (by decide) (by decide)).1,
    ((link_scheme_classification envEx "./page" "" [] initState rfl
      (by decide)).2 (by decide) (by decide)).2.2.1,
    ?_⟩
  have h := ((link_scheme_classification envEx "./page" "" [] initState rfl
    (by decide)).2 (by decide) (by decide)).2.2.2.2.1
  exact h.trans (by decide)

/-! ### C7: nested_parse and the target node -/

/-- Rendering a paragraph with raw-text children: one paragraph node is
appended under the insertion point, the texts rendered into it, and the
insertion point is restored. -/
theorem render_paragraph_rawTexts (env : Env) (ln : Nat) (texts : List String)
    (s : RState) (hcur : s.currentNode < s.nodes.length) :
    render env (.paragraph ln (texts.map Token.rawText)) s =
      ({ (renderChildren env (texts.map Token.rawText)
          { ((s.newNode { kind := .paragraph, line := ln }).2.appendChild
             s.currentNode s.nodes.length) with currentNode := s.nodes.length }).1
         with currentNode := s.currentNode }, none) := by
  have hunfold : render env (.paragraph ln (texts.map Token.rawText)) s =
      (match renderChildren env (texts.map Token.rawText)
        { ((s.newNode { kind := .paragraph, line := ln }).2.appendChild
           s.currentNode s.nodes.length) with currentNode := s.nodes.length } with
      | (s5, some e) => (s5, some e)
      | (s5, none) => ({ s5 with currentNode := s.currentNode }, none)) := by
    simp only [render]
    rfl
  set s4 : RState := (s.newNode { kind := .paragraph, line := ln }).2.appendChild
    s.currentNode s.nodes.length with hs4def
  have hcurlt : ({ s4 with currentNode := s.nodes.length } : RState).currentNode <
      ({ s4 with currentNode := s.nodes.length } : RState).nodes.length := by
    show s.nodes.length < s4.nodes.length
    rw [hs4def, appendChild_length, newNode_length]
    omega
  obtain ⟨e5, hex5⟩ :=
    renderChildren_rawTexts env texts { s4 with currentNode := s.nodes.length } hcurlt
  have hpair : renderChildren env (texts.map Token.rawText)
      { s4 with currentNode := s.nodes.length } =
      ((renderChildren env (texts.map Token.rawText)
        { s4 with currentNode := s.nodes.length }).1, none) := by
    rw [Prod.ext_iff]
    exact ⟨rfl, e5⟩
  rw [hunfold, hpair]

/-- C7, counterexample to the claim as stated: `nested_parse` of a heading
into target node 1 does not insert its section under the target — the fresh
render loop's section stack is rooted at the shared document, so the section
(node 3) attaches to the document root (node 0) while the target keeps no
children. -/
theorem nested_parse_heading_escapes_target_cex :
    (nestedParse envEx [] [Token.heading 1 0 [Token.rawText "h"]] 1 stateWithPara).2
      = none ∧
    ((nestedParse envEx [] [Token.heading 1 0 [Token.rawText "h"]] 1
      stateWithPara).1.nth 3).kind = .section ∧
    ((nestedParse envEx [] [Token.heading 1 0 [Token.rawText "h"]] 1
      stateWithPara).1.nth 3).parent = some 0 ∧
    ((nestedParse envEx [] [Token.heading 1 0 [Token.rawText "h"]] 1
      stateWithPara).1.nth 1).children = [] := by
  decide

/-- C7 (corrected): `nested_parse(text, targetNode)` renders through a fresh
render loop whose insertion point starts at targetNode and which shares the
outer render's document root and node arena; top-level non-heading content
(here: a paragraph) is appended under targetNode, while the outer renderer's
own cursor and section stack are untouched.  (Headings are the exception —
their sections attach under the shared document root, see the
counterexample.) -/
theorem nested_parse_inserts_under_target (env : Env) (fns : List String) (ln : Nat)
    (texts : List String) (target : Nat) (s : RState)
    (htar : target < s.nodes.length) :
    (nestedParse env fns [Token.paragraph ln (texts.map Token.rawText)] target s).2
      = none ∧
    ((nestedParse env fns [Token.paragraph ln (texts.map Token.rawText)] target
      s).1.nth s.nodes.length).kind = .paragraph ∧
    ((nestedParse env fns [Token.paragraph ln (texts.map Token.rawText)] target
      s).1.nth s.nodes.length).parent = some target ∧
    (nestedParse env fns [Token.paragraph ln (texts.map Token.rawText)] target
      s).1.nth target = (s.nth target).addChild s.nodes.length ∧
    (nestedParse env fns [Token.paragraph ln (texts.map Token.rawText)] target
      s).1.document = s.document ∧
    (nestedParse env fns [Token.paragraph ln (texts.map Token.rawText)] target
      s).1.currentNode = s.currentNode ∧
    (nestedParse env fns [Token.paragraph ln (texts.map Token.rawText)] target
      s).1.levelToElem = s.levelToElem := by
  set smid : RState :=
    { s with
      currentNode := target
      levelToElem := [(0, s.document)]
      footnotes := s.footnotes ++ fns } with hsmiddef
  have hpara := render_paragraph_rawTexts env ln texts smid
    (show target < s.nodes.length from htar)
  have hdoc : render env (.document fns [Token.paragraph ln (texts.map Token.rawText)])
      { s with currentNode := target, levelToElem := [(0, s.document)] } =
      ({ (renderChildren env (texts.map Token.rawText)
          { ((smid.newNode { kind := .paragraph, line := ln }).2.appendChild
             smid.currentNode smid.nodes.length) with
            currentNode := smid.nodes.length }).1
         with currentNode := smid.currentNode }, none) := by
    show (match render env (.paragraph ln (texts.map Token.rawText)) smid with
      | (s1, some e) => (s1, some e)
      | (s1, none) => renderChildren env [] s1) = _
    rw [hpara]
    rfl
  set RC : RState := (renderChildren env (texts.map Token.rawText)
    { ((smid.newNode { kind := .paragraph, line := ln }).2.appendChild
       smid.currentNode smid.nodes.length) with
      currentNode := smid.nodes.length }).1 with hRCdef
  have hfull : nestedParse env fns [Token.paragraph ln (texts.map Token.rawText)]
      target s =
      ({ { RC with currentNode := smid.currentNode } with
        currentNode := s.currentNode, levelToElem := s.levelToElem }, none) := by
    show (match render env
        (.document fns [Token.paragraph ln (texts.map Token.rawText)])
        { s with currentNode := target, levelToElem := [(0, s.document)] } with
      | (s1, e) =>
        ({ s1 with
           currentNode := s.currentNode
           levelToElem := s.levelToElem }, e)) = _
    rw [hdoc]
  set s4 : RState := (smid.newNode { kind := .paragraph, line := ln }).2.appendChild
    smid.currentNode smid.nodes.length with hs4def
  have hcurlt : ({ s4 with currentNode := smid.nodes.length } : RState).currentNode <
      ({ s4 with currentNode := smid.nodes.length } : RState).nodes.length := by
    show smid.nodes.length < s4.nodes.length
    rw [hs4def, appendChild_length, newNode_length]
    omega
  obtain ⟨e5, hex5⟩ :=
    renderChildren_rawTexts env texts { s4 with currentNode := smid.nodes.length } hcurlt
  have hs4para : s4.nth s.nodes.length =
      RNode.withParent { kind := .paragraph, line := ln } target := by
    rw [hs4def]
    rw [appendChild_nth_child _ _ _ (by rw [newNode_length]; exact Nat.lt_succ_self _)
      (Nat.ne_of_lt htar)]
    rw [newNode_nth_self]
  have hs4tar : s4.nth target = (s.nth target).addChild s.nodes.length := by
    have hp : target < ((smid.newNode { kind := .paragraph, line := ln }).2).nodes.length := by
      rw [newNode_length]
      show target < s.nodes.length + 1
      omega
    have h2 := appendChild_nth_parent ((smid.newNode { kind := .paragraph, line := ln }).2)
      target s.nodes.length hp (Nat.ne_of_lt htar)
    have h3 : ((smid.newNode { kind := .paragraph, line := ln }).2).nth target = s.nth target :=
      newNode_nth_lt smid _ target htar
    show ((smid.newNode { kind := .paragraph, line := ln }).2.appendChild target
      s.nodes.length).nth target = (s.nth target).addChild s.nodes.length
    rw [h2, h3]
  obtain ⟨ids, hid⟩ := hex5.2.2.2.2.2.2.2
  have hRCpara : RC.nth s.nodes.length =
      (RNode.withParent { kind := .paragraph, line := ln } target).addChildren ids := by
    have h1 : RC.nth s.nodes.length = (s4.nth s.nodes.length).addChildren ids := hid
    rw [h1, hs4para]
  have hRCtar : RC.nth target = (s.nth target).addChild s.nodes.length := by
    have h1 : RC.nth target = s4.nth target :=
      hex5.2.2.2.2.2.2.1 target (show target < s4.nodes.length by
        rw [hs4def, appendChild_length, newNode_length]
        show target < s.nodes.length + 1
        omega) (Nat.ne_of_lt htar)
    rw [h1, hs4tar]
  have hRCdoc : RC.document = s.document := by
    have h1 : RC.document =
        ({ s4 with currentNode := smid.nodes.length } : RState).document := hex5.2.1
    rw [h1]
    show s4.document = s.document
    rw [hs4def, appendChild_document, newNode_document]
  rw [hfull]
  refine ⟨rfl, ?_, ?_, ?_, ?_, rfl, rfl⟩
  · show (RC.nth s.nodes.length).kind = NKind.paragraph
    rw [hRCpara]
    rfl
  · show (RC.nth s.nodes.length).parent = some target
    rw [hRCpara]
    rfl
  · show RC.nth target = (s.nth target).addChild s.nodes.length
    exact hRCtar
  · show RC.document = s.document
    exact hRCdoc

/-- C7 witness: concrete instance — nested-parsing one paragraph under node 1
of `stateWithPara`. -/
theorem nested_parse_inserts_under_target_witness :
    (nestedParse envEx [] [Token.paragraph 0 (["x"].map Token.rawText)] 1
      stateWithPara).2 = none ∧
    ((nestedParse envEx [] [Token.paragraph 0 (["x"].map Token.rawText)] 1
      stateWithPara).1.nth 2).parent = some 1 := by
  exact ⟨(nested_parse_inserts_under_target envEx [] 0 ["x"] 1 stateWithPara
      (by decide)).1,
    (nested_parse_inserts_under_target envEx [] 0 ["x"] 1 stateWithPara
      (by decide)).2.2.1⟩

/-! ### C6: scope of the recovery from a failing front-matter options parse -/

theorem directiveOptions_yaml_fail (env : Env) (content : String)
    (hfm : content.data.take 3 = ['-', '-', '-'])
    (hyaml : env.yamlParse (directiveFrontMatter content).1 = .error .parserError) :
    directiveOptions env content = (.ok [], (directiveFrontMatter content).2) := by
  unfold directiveOptions
  rw [if_pos hfm]
  simp only []
  rw [hyaml]

theorem directiveOptions_scanner_fail (env : Env) (content : String)
    (hfm : content.data.take 3 = ['-', '-', '-'])
    (hyaml : env.yamlParse (directiveFrontMatter content).1 = .error .scannerError) :
    directiveOptions env content
      = (.error YamlErr.scannerError, (directiveFrontMatter content).2) := by
  unfold directiveOptions
  rw [if_pos hfm]
  simp only []
  rw [hyaml]

theorem directiveOptions_ok_none (env : Env) (content : String)
    (hfm : content.data.take 3 = ['-', '-', '-']) :
    directiveOptions { env with yamlParse := fun _ => .ok none } content
      = (.ok [], (directiveFrontMatter content).2) := by
  unfold directiveOptions
  rw [if_pos hfm]
  rfl

/-- Resolution of `render_directive` down to the `run` phase when the options
phase does not raise, the directive exists and the arguments validate. -/
theorem renderDirective_resolved (env : Env) (language content arguments : String)
    (line : Nat) (s : RState) (d : Directive) (msgs : List RNode) (pargs : List String)
    (opts : List (String × String))
    (hopt : (directiveOptions env content).1 = .ok opts)
    (hlook : env.lookupDirective (⟨(language.data.drop 1).dropLast⟩ : String)
      = (some d, msgs))
    (hargs : parse_directive_arguments d arguments = .ok pargs) :
    renderDirective env language content arguments line s =
      runDirectivePhase d
        { name := (⟨(language.data.drop 1).dropLast⟩ : String), arguments := pargs,
          options := opts,
          content := pySplitlines (directiveOptions env content).2, lineno := line,
          contentOffset := 0, blockText := (directiveOptions env content).2 }
        (directiveOptions env content).2 line s := by
  unfold renderDirective
  simp only []
  rw [hopt]
  show (match env.lookupDirective (⟨(language.data.drop 1).dropLast⟩ : String) with
    | (none, messages) => (spliceNewNodes s messages, none)
    | (some directive_class, _) =>
      match parse_directive_arguments directive_class arguments with
      | .error msg => (s, some (RErr.runtimeError msg))
      | .ok args => runDirectivePhase directive_class
          { name := (⟨(language.data.drop 1).dropLast⟩ : String), arguments := args,
            options := opts,
            content := pySplitlines (directiveOptions env content).2, lineno := line,
            contentOffset := 0, blockText := (directiveOptions env content).2 }
          (directiveOptions env content).2 line s) = _
  rw [hlook]
  show (match parse_directive_arguments d arguments with
    | .error msg => (s, some (RErr.runtimeError msg))
    | .ok args => runDirectivePhase d
        { name := (⟨(language.data.drop 1).dropLast⟩ : String), arguments := args,
          options := opts,
          content := pySplitlines (directiveOptions env content).2, lineno := line,
          contentOffset := 0, blockText := (directiveOptions env content).2 }
        (directiveOptions env content).2 line s)
    = runDirectivePhase d
        { name := (⟨(language.data.drop 1).dropLast⟩ : String), arguments := pargs,
          options := opts,
          content := pySplitlines (directiveOptions env content).2, lineno := line,
          contentOffset := 0, blockText := (directiveOptions env content).2 }
        (directiveOptions env content).2 line s
  rw [hargs]

/-- When the options phase raises an uncaught YAML failure, `render_directive`
terminates immediately with that exception and the state untouched. -/
theorem renderDirective_yaml_fatal (env : Env) (language content arguments : String)
    (line : Nat) (s : RState) (e : YamlErr)
    (hopt : (directiveOptions env content).1 = .error e) :
    renderDirective env language content arguments line s
      = (s, some (.yamlError e)) := by
  unfold renderDirective
  simp only []
  rw [hopt]

/-- C6, counterexample to the claim as stated: the `except` clause catches
only `yaml.parser.ParserError`; an options block failing with the sibling
`ScannerError` (e.g. an unterminated single-quoted scalar) is not caught, so
`render_directive` raises, the resolved directive never runs (the ghost run
trace is unchanged), and the failure is fatal to the render. -/
theorem directive_options_scanner_error_fatal_cex :
    renderDirective envC6bad "\x7badm\x7d" "---\na: [\n---\nbody" "" 3 initState =
      (initState, some (RErr.yamlError YamlErr.scannerError)) ∧
    (renderDirective envC6bad "\x7badm\x7d" "---\na: [\n---\nbody" "" 3
      initState).1.runCalls = initState.runCalls := by
  decide

/-- C6 (corrected): for a directive invocation whose content opens with a
front-matter fence, a `yaml.parser.ParserError` in the options block is
recovered locally — `render_directive` behaves exactly as if the parse had
succeeded with no options, and the directive still runs with an empty options
mapping — but a failure of a sibling `MarkedYAMLError` kind (`ScannerError`
and friends) is not caught: it propagates out of `render_directive`, the
directive never runs, and the failure is fatal to the whole render. -/
theorem directive_options_parser_recovered_scanner_fatal (env : Env)
    (language content arguments : String) (line : Nat) (s : RState)
    (d : Directive) (msgs : List RNode) (pargs : List String)
    (hfm : content.data.take 3 = ['-', '-', '-'])
    (hlook : env.lookupDirective (⟨(language.data.drop 1).dropLast⟩ : String)
      = (some d, msgs))
    (hargs : parse_directive_arguments d arguments = .ok pargs) :
    (env.yamlParse (directiveFrontMatter content).1 = .error .parserError →
      renderDirective env language content arguments line s =
        runDirectivePhase d
          { name := (⟨(language.data.drop 1).dropLast⟩ : String), arguments := pargs,
            options := [],
            content := pySplitlines (directiveFrontMatter content).2, lineno := line,
            contentOffset := 0, blockText := (directiveFrontMatter content).2 }
          (directiveFrontMatter content).2 line s ∧
      renderDirective env language content arguments line s =
        renderDirective { env with yamlParse := fun _ => .ok none }
          language content arguments line s) ∧
    (env.yamlParse (directiveFrontMatter content).1 = .error .scannerError →
      renderDirective env language content arguments line s
        = (s, some (.yamlError .scannerError)) ∧
      (renderDirective env language content arguments line s).1.runCalls
        = s.runCalls) := by
  constructor
  · intro hyaml
    have hoc := directiveOptions_yaml_fail env content hfm hyaml
    have hopt : (directiveOptions env content).1 = .ok [] := by rw [hoc]
    have h1 := renderDirective_resolved env language content arguments line s d msgs
      pargs [] hopt hlook hargs
    have hoc2 := directiveOptions_ok_none env content hfm
    have hopt2 : (directiveOptions { env with yamlParse := fun _ => .ok none }
        content).1 = .ok [] := by rw [hoc2]
    have h2 := renderDirective_resolved { env with yamlParse := fun _ => .ok none }
      language content arguments line s d msgs pargs [] hopt2 hlook hargs
    constructor
    · rw [h1, hoc]
    · rw [h1, h2, hoc, hoc2]
  · intro hyaml
    have hoc := directiveOptions_scanner_fail env content hfm hyaml
    have hopt : (directiveOptions env content).1 = .error YamlErr.scannerError := by
      rw [hoc]
    have h := renderDirective_yaml_fatal env language content arguments line s _ hopt
    exact ⟨h, by rw [h]⟩

/-- C6 witness: a concrete directive whose front matter fails with the caught
`ParserError` still reaches its run phase with empty options, while the same
invocation failing with `ScannerError` raises fatally. -/
theorem directive_options_parser_recovered_scanner_fatal_witness :
    renderDirective envC6 "\x7badm\x7d" "---\na: [\n---\nbody" "" 3 initState =
      runDirectivePhase dirAdm
        { name := "adm", arguments := [], options := [], content := ["", "body"],
          lineno := 3, contentOffset := 0, blockText := "\nbody" } "\nbody" 3 initState ∧
    renderDirective envC6 "\x7badm\x7d" "---\na: [\n---\nbody" "" 3 initState =
      renderDirective { envC6 with yamlParse := fun _ => .ok none }
        "\x7badm\x7d" "---\na: [\n---\nbody" "" 3 initState ∧
    renderDirective envC6bad "\x7badm\x7d" "---\na: [\n---\nbody" "" 3 initState =
      (initState, some (RErr.yamlError YamlErr.scannerError)) := by
  have h1 := (directive_options_parser_recovered_scanner_fatal envC6 "\x7badm\x7d"
    "---\na: [\n---\nbody" "" 3 initState dirAdm [] [] (by decide) rfl rfl).1 rfl
  have h2 := (directive_options_parser_recovered_scanner_fatal envC6bad "\x7badm\x7d"
    "---\na: [\n---\nbody" "" 3 initState dirAdm [] [] (by decide) rfl rfl).2 rfl
  exact ⟨h1.1.trans (by decide), h1.2, h2.1⟩

/-! ### C1/C4: section nesting under heading sequences -/

theorem foldl_max_choice (l : List Nat) :
    ∀ a : Nat, l.foldl max a ∈ l ∨ l.foldl max a = a := by
  induction l with
  | nil =>
    intro a
    exact Or.inr rfl
  | cons b t ih =>
    intro a
    rcases ih (max a b) with h | h
    · exact Or.inl (List.mem_cons_of_mem _ h)
    · rcases max_choice a b with hm | hm
      · right
        rw [List.foldl_cons, h]
        exact hm
      · left
        rw [List.foldl_cons, h, hm]
        exact List.mem_cons_self b t

theorem foldl_max_mem (l : List Nat) (h0 : (0 : Nat) ∈ l) : l.foldl max 0 ∈ l := by
  rcases foldl_max_choice l 0 with h | h
  · exact h
  · rw [h]
    exact h0

theorem lookup_mem (a v : Nat) :
    ∀ l : List (Nat × Nat), l.lookup a = some v → (a, v) ∈ l := by
  intro l
  induction l with
  | nil =>
    intro h
    exact absurd h (by simp [List.lookup])
  | cons p t ih =>
    intro h
    obtain ⟨k, b⟩ := p
    simp only [List.lookup] at h
    split at h
    · rename_i hak
      have hk : a = k := eq_of_beq hak
      have hv : b = v := by injection h
      rw [hk, ← hv]
      exact List.mem_cons_self _ _
    · exact List.mem_cons_of_mem _ (ih h)

theorem lookup_of_mem_fst (a : Nat) :
    ∀ l : List (Nat × Nat), a ∈ l.map Prod.fst → ∃ v, l.lookup a = some v := by
  intro l
  induction l with
  | nil =>
    intro h
    exact absurd h (by simp)
  | cons p t ih =>
    intro h
    obtain ⟨k, b⟩ := p
    by_cases hak : a = k
    · refine ⟨b, ?_⟩
      show (match a == k with
        | true => some b
        | false => t.lookup a) = some b
      rw [show (a == k) = true from beq_iff_eq.mpr hak]
    · have hmem : a ∈ t.map Prod.fst := by
        simp only [List.map_cons, List.mem_cons] at h
        rcases h with h | h
        · exact absurd h hak
        · exact h
      obtain ⟨v, hv⟩ := ih hmem
      refine ⟨v, ?_⟩
      show (match a == k with
        | true => some b
        | false => t.lookup a) = some v
      rw [show (a == k) = false from beq_eq_false_iff_ne.mpr hak]
      exact hv

theorem stack_lookup_self (L sec : Nat) (rest : List (Nat × Nat)) :
    (((L, sec) :: rest).filter (fun p => p.1 ≤ L)).lookup L = some sec := by
  rw [List.filter_cons]
  rw [if_pos (by simp)]
  show (match L == L with
    | true => some sec
    | false => (rest.filter (fun p => p.1 ≤ L)).lookup L) = some sec
  rw [show (L == L) = true from beq_self_eq_true L]

theorem stack_keys_le (L : Nat) (l : List (Nat × Nat)) :
    ∀ p ∈ l.filter (fun p => p.1 ≤ L), p.1 ≤ L := by
  intro p hp
  exact of_decide_eq_true (List.mem_filter.mp hp).2

theorem renderChildren_append (env : Env) (bs : List Token) :
    ∀ (as : List Token) (s : RState),
      renderChildren env (as ++ bs) s =
        (match renderChildren env as s with
         | (s1, some e) => (s1, some e)
         | (s1, none) => renderChildren env bs s1) := by
  intro as
  induction as with
  | nil =>
    intro s
    rfl
  | cons t ts ih =>
    intro s
    cases hr : render env t s with
    | mk s1 e =>
      have hLft : renderChildren env ((t :: ts) ++ bs) s =
          (match (s1, e) with
           | (s2, some er) => (s2, some er)
           | (s2, none) => renderChildren env (ts ++ bs) s2) := by
        show (match render env t s with
          | (s2, some er) => (s2, some er)
          | (s2, none) => renderChildren env (ts ++ bs) s2) = _
        rw [hr]
      have hRgt : renderChildren env (t :: ts) s =
          (match (s1, e) with
           | (s2, some er) => (s2, some er)
           | (s2, none) => renderChildren env ts s2) := by
        show (match render env t s with
          | (s2, some er) => (s2, some er)
          | (s2, none) => renderChildren env ts s2) = _
        rw [hr]
      rw [hLft, hRgt]
      cases e with
      | some er => rfl
      | none => exact ih s1

theorem renderChildren_rawTexts_length (env : Env) (texts : List String) :
    ∀ s : RState,
      (renderChildren env (texts.map Token.rawText) s).1.nodes.length =
        s.nodes.length + texts.length := by
  induction texts with
  | nil =>
    intro s
    rfl
  | cons t ts ih =>
    intro s
    show (renderChildren env (ts.map Token.rawText)
        ((s.newNode { kind := .text, text := t }).2.appendChild s.currentNode
          s.nodes.length)).1.nodes.length = s.nodes.length + (ts.length + 1)
    rw [ih]
    rw [appendChild_length, newNode_length]
    omega

theorem renderChildren_rawTexts_new (env : Env) (texts : List String) :
    ∀ (s : RState) (j : Nat), s.currentNode < s.nodes.length →
      s.nodes.length ≤ j →
      j < (renderChildren env (texts.map Token.rawText) s).1.nodes.length →
      ((renderChildren env (texts.map Token.rawText) s).1.nth j).kind = .text := by
  induction texts with
  | nil =>
    intro s j hcur hj1 hj2
    exact absurd hj2 (by show ¬ j < s.nodes.length; omega)
  | cons t ts ih =>
    intro s j hcur hj1 hj2
    set mid : RState := (s.newNode { kind := .text, text := t }).2.appendChild
      s.currentNode s.nodes.length with hmiddef
    have hmidlen : mid.nodes.length = s.nodes.length + 1 := by
      rw [hmiddef, appendChild_length, newNode_length]
    have hmidcur : mid.currentNode = s.currentNode := by
      rw [hmiddef, appendChild_currentNode, newNode_currentNode]
    have hshow : renderChildren env ((t :: ts).map Token.rawText) s =
        renderChildren env (ts.map Token.rawText) mid := by
      show (match render env (Token.rawText t) s with
        | (s1, some e) => (s1, some e)
        | (s1, none) => renderChildren env (ts.map Token.rawText) s1)
        = renderChildren env (ts.map Token.rawText) mid
      rfl
    rw [hshow] at hj2 ⊢
    by_cases hcase : s.nodes.length + 1 ≤ j
    · exact ih mid j (by rw [hmidcur, hmidlen]; omega) (by rw [hmidlen]; omega) hj2
    · have hjeq : j = s.nodes.length := by omega
      obtain ⟨e2, hex2⟩ := renderChildren_rawTexts env ts mid
        (by rw [hmidcur, hmidlen]; omega)
      have hpres := hex2.2.2.2.2.2.2.1 j (by rw [hmidlen]; omega)
        (by rw [hmidcur]; omega)
      rw [hpres, hjeq, hmiddef]
      rw [appendChild_nth_child _ _ _ (by rw [newNode_length]; omega)
        (Nat.ne_of_lt hcur)]
      rw [newNode_nth_self]
      rfl

theorem addSection_ok_intro (s : RState) (sec L par k : Nat) (ks : List Nat)
    (hk : (s.levelToElem.map Prod.fst).filter (· < L) = k :: ks)
    (hpar : s.levelToElem.lookup ((k :: ks).foldl max 0) = some par) :
    addSection s sec L =
      ({ s.appendChild par sec with
         levelToElem := ((L, sec) :: (s.appendChild par sec).levelToElem.filter
           (fun p => !(p.1 = L))).filter (fun p => p.1 ≤ L) }, none) := by
  unfold addSection
  simp only []
  rw [hk]
  show (match s.levelToElem.lookup ((k :: ks).foldl max 0) with
    | none => (s, some RErr.keyError)
    | some parent =>
      ({ s.appendChild parent sec with
         levelToElem := ((L, sec) :: (s.appendChild parent sec).levelToElem.filter
           (fun p => !(p.1 = L))).filter (fun p => p.1 ≤ L) }, none)) = _
  rw [hpar]

theorem stackOk_init : stackOk initState := by
  refine ⟨⟨0, ?_⟩, ?_⟩
  · show (0, 0) ∈ [((0 : Nat), (0 : Nat))]
    exact List.mem_singleton.mpr rfl
  · intro p hp
    have hp' := List.mem_singleton.mp (hp : p ∈ [((0 : Nat), (0 : Nat))])
    subst hp'
    refine ⟨?_, ?_, Or.inl ?_⟩ <;> decide

theorem sectionsNested_init : sectionsNested initState := by
  intro i hi hk
  have hi1 : i < 1 := hi
  have hi0 : i = 0 := by omega
  subst hi0
  exact absurd hk (by decide)

/-- One heading rendered on a consistent state: `_add_section` succeeds, the
new section (arena index `|s.nodes| + 1`) attaches under the deepest stack
entry of level strictly below `L`, the stack maps `L` to the new section and
keeps only keys `≤ L`, every pre-existing node keeps its kind, ghost level and
parent, and both invariants are preserved. -/
theorem heading_step (env : Env) (L ln : Nat) (texts : List String) (s : RState)
    (hL : 1 ≤ L) (hstack : stackOk s) (hnest : sectionsNested s) :
    ∃ S pl par,
      render env (.heading L ln (texts.map Token.rawText)) s = (S, none) ∧
      s.levelToElem.lookup pl = some par ∧ pl < L ∧ par < s.nodes.length ∧
      (s.nth par).level = pl ∧
      ((s.nth par).kind = .document ∨ (s.nth par).kind = .section) ∧
      stackOk S ∧ sectionsNested S ∧
      S.levelToElem = ((L, s.nodes.length + 1) ::
        s.levelToElem.filter (fun p => !(p.1 = L))).filter (fun p => p.1 ≤ L) ∧
      S.currentNode = s.nodes.length + 1 ∧
      S.nodes.length = s.nodes.length + 2 + texts.length ∧
      (S.nth (s.nodes.length + 1)).kind = .section ∧
      (S.nth (s.nodes.length + 1)).level = L ∧
      (S.nth (s.nodes.length + 1)).parent = some par ∧
      (∀ j, j < s.nodes.length → (S.nth j).kind = (s.nth j).kind ∧
        (S.nth j).level = (s.nth j).level ∧ (S.nth j).parent = (s.nth j).parent) ∧
      S.document = s.document := by
  obtain ⟨⟨r0, hr0⟩, hent⟩ :=
    (hstack : (∃ r, (0, r) ∈ s.levelToElem) ∧
      ∀ p ∈ s.levelToElem, p.2 < s.nodes.length ∧ (s.nth p.2).level = p.1 ∧
        ((s.nth p.2).kind = .document ∨ (s.nth p.2).kind = .section))
  have h0mem : (0 : Nat) ∈ (s.levelToElem.map Prod.fst).filter (· < L) := by
    rw [List.mem_filter]
    refine ⟨List.mem_map_of_mem Prod.fst hr0, ?_⟩
    simp only [decide_eq_true_eq]
    omega
  cases hk : (s.levelToElem.map Prod.fst).filter (· < L) with
  | nil =>
    rw [hk] at h0mem
    exact absurd h0mem (List.not_mem_nil 0)
  | cons k ks =>
    rw [hk] at h0mem
    have hplmem : (k :: ks).foldl max 0 ∈ k :: ks := foldl_max_mem _ h0mem
    have hplkeys : (k :: ks).foldl max 0 ∈
        (s.levelToElem.map Prod.fst).filter (· < L) := by
      rw [hk]
      exact hplmem
    have hplfst : (k :: ks).foldl max 0 ∈ s.levelToElem.map Prod.fst :=
      (List.mem_filter.mp hplkeys).1
    have hplL : (k :: ks).foldl max 0 < L := by
      have h := (List.mem_filter.mp hplkeys).2
      simpa using h
    obtain ⟨par, hpar⟩ := lookup_of_mem_fst _ _ hplfst
    have hparent_mem : ((k :: ks).foldl max 0, par) ∈ s.levelToElem :=
      lookup_mem _ _ _ hpar
    have hparlt : par < s.nodes.length := (hent _ hparent_mem).1
    have hparlevel : (s.nth par).level = (k :: ks).foldl max 0 :=
      (hent _ hparent_mem).2.1
    have hparkind : (s.nth par).kind = .document ∨ (s.nth par).kind = .section :=
      (hent _ hparent_mem).2.2
    have h4 := addSection_ok_intro (headingSetup s L ln) (s.nodes.length + 1) L par k ks
      (by rw [headingSetup_levelToElem]; exact hk)
      (by rw [headingSetup_levelToElem]; exact hpar)
    obtain ⟨s4, hs4def⟩ : ∃ s4 : RState,
        s4 = { (headingSetup s L ln).appendChild par (s.nodes.length + 1) with
          levelToElem := ((L, s.nodes.length + 1) ::
            ((headingSetup s L ln).appendChild par
              (s.nodes.length + 1)).levelToElem.filter
              (fun p => !(p.1 = L))).filter (fun p => p.1 ≤ L) } := ⟨_, rfl⟩
    rw [← hs4def] at h4
    have hnodes4 : s4.nodes =
        ((headingSetup s L ln).appendChild par (s.nodes.length + 1)).nodes := by
      rw [hs4def]
    have hlen4 : s4.nodes.length = s.nodes.length + 2 := by
      rw [hnodes4, appendChild_length, headingSetup_length]
    have hdoc4 : s4.document = s.document := by
      rw [hs4def]
      show ((headingSetup s L ln).appendChild par (s.nodes.length + 1)).document
        = s.document
      rw [appendChild_document, headingSetup_document]
    have hstack4 : s4.levelToElem = ((L, s.nodes.length + 1) ::
        s.levelToElem.filter (fun p => !(p.1 = L))).filter (fun p => p.1 ≤ L) := by
      rw [hs4def]
      show ((L, s.nodes.length + 1) ::
        ((headingSetup s L ln).appendChild par
          (s.nodes.length + 1)).levelToElem.filter
          (fun p => !(p.1 = L))).filter (fun p => p.1 ≤ L) = _
      rw [appendChild_levelToElem, headingSetup_levelToElem]
    have hnth4 : ∀ j, s4.nth j =
        ((headingSetup s L ln).appendChild par (s.nodes.length + 1)).nth j :=
      fun j => nth_congr _ _ hnodes4 j
    have hs4sec : s4.nth (s.nodes.length + 1) =
        (RNode.addChild { kind := .section, line := ln, level := L }
          s.nodes.length).withParent par := by
      rw [hnth4]
      rw [appendChild_nth_child _ _ _ (by rw [headingSetup_length]; omega) (by omega)]
      rw [headingSetup_nth_section]
    have hs4title : s4.nth s.nodes.length =
        RNode.withParent { kind := .title, line := ln } (s.nodes.length + 1) := by
      rw [hnth4]
      rw [appendChild_nth_other _ _ _ _ (by omega) (by omega)]
      rw [headingSetup_nth_title]
    have hs4old : ∀ j, j < s.nodes.length →
        (s4.nth j).kind = (s.nth j).kind ∧ (s4.nth j).level = (s.nth j).level ∧
          (s4.nth j).parent = (s.nth j).parent := by
      intro j hj
      rw [hnth4]
      by_cases hjpar : j = par
      · subst hjpar
        rw [appendChild_nth_parent _ _ _ (by rw [headingSetup_length]; omega) (by omega)]
        rw [headingSetup_nth_old _ _ _ _ hj]
        exact ⟨addChild_kind _ _, addChild_level _ _, addChild_parent _ _⟩
      · rw [appendChild_nth_other _ _ _ _ hjpar (by omega)]
        rw [headingSetup_nth_old _ _ _ _ hj]
        exact ⟨rfl, rfl, rfl⟩
    have hrender := render_heading_rawTexts env L ln texts s s4 h4
    obtain ⟨S5, hS5def⟩ : ∃ S5 : RState,
        S5 = (renderChildren env (texts.map Token.rawText)
          { s4 with currentNode := s.nodes.length }).1 := ⟨_, rfl⟩
    rw [← hS5def] at hrender
    have hcurIn : ({ s4 with currentNode := s.nodes.length } : RState).currentNode <
        ({ s4 with currentNode := s.nodes.length } : RState).nodes.length := by
      show s.nodes.length < s4.nodes.length
      omega
    obtain ⟨e5, hex5⟩ := renderChildren_rawTexts env texts
      { s4 with currentNode := s.nodes.length } hcurIn
    rw [← hS5def] at hex5
    have hcur5 : S5.currentNode = s.nodes.length := hex5.1
    have hdoc5 : S5.document = s.document :=
      (show S5.document = s4.document from hex5.2.1).trans hdoc4
    have hstack5 : S5.levelToElem = s4.levelToElem := hex5.2.2.1
    have hlen5 : S5.nodes.length = s.nodes.length + 2 + texts.length := by
      rw [hS5def, renderChildren_rawTexts_length]
      show s4.nodes.length + texts.length = _
      omega
    have hoth5 : ∀ j, j < s4.nodes.length → j ≠ s.nodes.length →
        S5.nth j = s4.nth j := by
      intro j hj hne
      exact hex5.2.2.2.2.2.2.1 j hj hne
    obtain ⟨ids, hids⟩ := hex5.2.2.2.2.2.2.2
    have hS5cur : S5.nth s.nodes.length = (s4.nth s.nodes.length).addChildren ids := hids
    have hnew5 : ∀ j, s.nodes.length + 2 ≤ j → j < S5.nodes.length →
        (S5.nth j).kind = .text := by
      intro j hj1 hj2
      rw [hS5def] at hj2 ⊢
      exact renderChildren_rawTexts_new env texts
        { s4 with currentNode := s.nodes.length } j hcurIn
        (by show s4.nodes.length ≤ j; omega) hj2
    have hfinsec : S5.nth (s.nodes.length + 1) =
        (RNode.addChild { kind := .section, line := ln, level := L }
          s.nodes.length).withParent par := by
      rw [hoth5 _ (by omega) (by omega), hs4sec]
    refine ⟨{ S5 with currentNode := s.nodes.length + 1 }, (k :: ks).foldl max 0, par,
      hrender, hpar, hplL, hparlt, hparlevel, hparkind, ?_, ?_, ?_, rfl, ?_, ?_, ?_,
      ?_, ?_, ?_⟩
    · -- stackOk
      refine ⟨⟨r0, ?_⟩, ?_⟩
      · show (0, r0) ∈ S5.levelToElem
        rw [hstack5, hstack4]
        refine List.mem_filter.mpr
          ⟨List.mem_cons_of_mem _ (List.mem_filter.mpr ⟨hr0, ?_⟩), ?_⟩
        · rw [Bool.not_eq_true']
          exact decide_eq_false (by omega)
        · exact decide_eq_true (by omega)
      · intro p hp
        have hp' : p ∈ ((L, s.nodes.length + 1) ::
            s.levelToElem.filter (fun p => !(p.1 = L))).filter (fun p => p.1 ≤ L) := by
          rw [← hstack4, ← hstack5]
          exact hp
        rcases List.mem_cons.mp (List.mem_filter.mp hp').1 with hpe | hpm
        · subst hpe
          refine ⟨?_, ?_, Or.inr ?_⟩
          · show s.nodes.length + 1 < S5.nodes.length
            omega
          · show (S5.nth (s.nodes.length + 1)).level = L
            rw [hfinsec]
            rfl
          · show (S5.nth (s.nodes.length + 1)).kind = NKind.section
            rw [hfinsec]
            rfl
        · have hpmem : p ∈ s.levelToElem := (List.mem_filter.mp hpm).1
          obtain ⟨hq1, hq2, hq3⟩ := hent p hpmem
          have hj5 : S5.nth p.2 = s4.nth p.2 := hoth5 p.2 (by omega) (by omega)
          have h4o := hs4old p.2 hq1
          refine ⟨?_, ?_, ?_⟩
          · show p.2 < S5.nodes.length
            omega
          · show (S5.nth p.2).level = p.1
            rw [hj5, h4o.2.1]
            exact hq2
          · show (S5.nth p.2).kind = NKind.document ∨ (S5.nth p.2).kind = NKind.section
            rw [hj5, h4o.1]
            exact hq3
    · -- sectionsNested
      intro i hi hkind
      have hi' : i < S5.nodes.length := hi
      have hkind' : (S5.nth i).kind = NKind.section := hkind
      rcases Nat.lt_or_ge i s.nodes.length with hlt | hge
      · have hj5 : S5.nth i = s4.nth i := hoth5 i (by omega) (by omega)
        have h4o := hs4old i hlt
        have hks : (s.nth i).kind = NKind.section := by
          rw [← h4o.1, ← hj5]
          exact hkind'
        obtain ⟨pari, hp1, hp2, hp3, hp4⟩ := hnest i hlt hks
        have hjp5 : S5.nth pari = s4.nth pari := hoth5 pari (by omega) (by omega)
        have h4op := hs4old pari hp2
        refine ⟨pari, ?_, ?_, ?_, ?_⟩
        · show (S5.nth i).parent = some pari
          rw [hj5, h4o.2.2]
          exact hp1
        · show pari < S5.nodes.length
          omega
        · show (S5.nth pari).level < (S5.nth i).level
          rw [hj5, hjp5, h4o.2.1, h4op.2.1]
          exact hp3
        · show (S5.nth pari).kind = NKind.document ∨ (S5.nth pari).kind = NKind.section
          rw [hjp5, h4op.1]
          exact hp4
      · rcases Nat.lt_or_ge i (s.nodes.length + 2) with hlt2 | hge2
        · by_cases hio : i = s.nodes.length
          · subst hio
            have ht : (S5.nth s.nodes.length).kind = NKind.title := by
              rw [hS5cur, addChildren_kind, hs4title]
              rfl
            exact absurd (ht.symm.trans hkind') (by decide)
          · have hieq : i = s.nodes.length + 1 := by omega
            subst hieq
            have hjp5 : S5.nth par = s4.nth par := hoth5 par (by omega) (by omega)
            have h4op := hs4old par hparlt
            refine ⟨par, ?_, ?_, ?_, ?_⟩
            · show (S5.nth (s.nodes.length + 1)).parent = some par
              rw [hfinsec]
              rfl
            · show par < S5.nodes.length
              omega
            · show (S5.nth par).level < (S5.nth (s.nodes.length + 1)).level
              rw [hfinsec, hjp5, h4op.2.1, hparlevel]
              show (k :: ks).foldl max 0 < L
              exact hplL
            · show (S5.nth par).kind = NKind.document ∨ (S5.nth par).kind = NKind.section
              rw [hjp5, h4op.1]
              exact hparkind
        · have htext := hnew5 i hge2 hi'
          exact absurd (htext.symm.trans hkind') (by decide)
    · show S5.levelToElem = _
      rw [hstack5, hstack4]
    · show S5.nodes.length = _
      exact hlen5
    · show (S5.nth (s.nodes.length + 1)).kind = NKind.section
      rw [hfinsec]
      rfl
    · show (S5.nth (s.nodes.length + 1)).level = L
      rw [hfinsec]
      rfl
    · show (S5.nth (s.nodes.length + 1)).parent = some par
      rw [hfinsec]
      rfl
    · intro j hj
      have hj5 : S5.nth j = s4.nth j := hoth5 j (by omega) (by omega)
      have h4o := hs4old j hj
      show (S5.nth j).kind = (s.nth j).kind ∧ (S5.nth j).level = (s.nth j).level ∧
        (S5.nth j).parent = (s.nth j).parent
      rw [hj5]
      exact h4o
    · show S5.document = s.document
      exact hdoc5

theorem renderHeadings_ok (env : Env) (hs : List (Nat × Nat × List String)) :
    ∀ s : RState, stackOk s → sectionsNested s → (∀ h ∈ hs, 1 ≤ h.1) →
      (renderChildren env (headingTokens hs) s).2 = none ∧
      stackOk (renderChildren env (headingTokens hs) s).1 ∧
      sectionsNested (renderChildren env (headingTokens hs) s).1 := by
  induction hs with
  | nil =>
    intro s h1 h2 _
    exact ⟨rfl, h1, h2⟩
  | cons h ts ih =>
    intro s h1 h2 hall
    obtain ⟨L, ln, texts⟩ := h
    obtain ⟨S, pl, par, hrender, _, _, _, _, _, hS1, hS2, _⟩ :=
      heading_step env L ln texts s (hall _ (List.mem_cons_self _ _)) h1 h2
    have hred : renderChildren env (headingTokens ((L, ln, texts) :: ts)) s =
        renderChildren env (headingTokens ts) S := by
      show (match render env (Token.heading L ln (texts.map Token.rawText)) s with
        | (s1, some e) => (s1, some e)
        | (s1, none) => renderChildren env (headingTokens ts) s1)
        = renderChildren env (headingTokens ts) S
      rw [hrender]
    rw [hred]
    exact ih S hS1 hS2 (fun x hx => hall x (List.mem_cons_of_mem _ hx))

/-- C1: for every heading sequence with levels ≥ 1 and raw-text titles,
rendered in order from a fresh renderer, rendering succeeds, the resulting
section tree is strictly nested — every section's parent exists and is a
document or section node of strictly smaller heading level — the section-stack
invariant holds, and after the final heading of level `L` the stack maps `L`
to the section just created for it and holds no entry with level strictly
greater than `L`. -/
theorem heading_sequence_section_nesting (env : Env)
    (hs : List (Nat × Nat × List String)) (L ln : Nat) (texts : List String)
    (hall : ∀ h ∈ hs, 1 ≤ h.1) (hL : 1 ≤ L) :
    (renderChildren env (headingTokens (hs ++ [(L, ln, texts)])) initState).2
      = none ∧
    sectionsNested (renderChildren env (headingTokens (hs ++ [(L, ln, texts)]))
      initState).1 ∧
    stackOk (renderChildren env (headingTokens (hs ++ [(L, ln, texts)]))
      initState).1 ∧
    (renderChildren env (headingTokens (hs ++ [(L, ln, texts)]))
        initState).1.levelToElem.lookup L
      = some ((renderChildren env (headingTokens hs) initState).1.nodes.length + 1) ∧
    (∀ p ∈ (renderChildren env (headingTokens (hs ++ [(L, ln, texts)]))
        initState).1.levelToElem, p.1 ≤ L) ∧
    ((renderChildren env (headingTokens (hs ++ [(L, ln, texts)])) initState).1.nth
        ((renderChildren env (headingTokens hs) initState).1.nodes.length + 1)).kind
      = .section := by
  obtain ⟨e0, hmid1, hmid2⟩ := renderHeadings_ok env hs initState stackOk_init
    sectionsNested_init hall
  obtain ⟨S, pl, par, hrender, hlkp, hplL, _, _, _, hS1, hS2, hstackEq, _, _, hkind, _⟩ :=
    heading_step env L ln texts (renderChildren env (headingTokens hs) initState).1
      hL hmid1 hmid2
  have happ : renderChildren env (headingTokens (hs ++ [(L, ln, texts)])) initState
      = (S, none) := by
    have hmap : headingTokens (hs ++ [(L, ln, texts)])
        = headingTokens hs ++ headingTokens [(L, ln, texts)] := by
      unfold headingTokens
      exact List.map_append _ _ _
    rw [hmap, renderChildren_append]
    have hpair : renderChildren env (headingTokens hs) initState
        = ((renderChildren env (headingTokens hs) initState).1, none) := by
      rw [Prod.ext_iff]
      exact ⟨rfl, e0⟩
    rw [hpair]
    show (match render env (Token.heading L ln (texts.map Token.rawText))
        (renderChildren env (headingTokens hs) initState).1 with
      | (s1, some e) => (s1, some e)
      | (s1, none) => renderChildren env [] s1) = (S, none)
    rw [hrender]
    rfl
  rw [happ]
  refine ⟨rfl, hS2, hS1, ?_, ?_, hkind⟩
  · show S.levelToElem.lookup L
      = some ((renderChildren env (headingTokens hs) initState).1.nodes.length + 1)
    rw [hstackEq]
    exact stack_lookup_self L _ _
  · intro p hp
    have hp0 : p ∈ S.levelToElem := hp
    rw [hstackEq] at hp0
    exact stack_keys_le L _ p hp0

/-- C1 witness: the heading sequence 1, 2 rendered on a fresh renderer. -/
theorem heading_sequence_section_nesting_witness :
    (renderChildren envEx (headingTokens ([(1, 0, ["a"])] ++ [(2, 0, ["b"])]))
      initState).2 = none ∧
    sectionsNested (renderChildren envEx
      (headingTokens ([(1, 0, ["a"])] ++ [(2, 0, ["b"])])) initState).1 ∧
    stackOk (renderChildren envEx
      (headingTokens ([(1, 0, ["a"])] ++ [(2, 0, ["b"])])) initState).1 ∧
    (renderChildren envEx (headingTokens ([(1, 0, ["a"])] ++ [(2, 0, ["b"])]))
        initState).1.levelToElem.lookup 2
      = some ((renderChildren envEx (headingTokens [(1, 0, ["a"])])
          initState).1.nodes.length + 1) ∧
    (∀ p ∈ (renderChildren envEx (headingTokens ([(1, 0, ["a"])] ++ [(2, 0, ["b"])]))
        initState).1.levelToElem, p.1 ≤ 2) ∧
    ((renderChildren envEx (headingTokens ([(1, 0, ["a"])] ++ [(2, 0, ["b"])]))
        initState).1.nth
        ((renderChildren envEx (headingTokens [(1, 0, ["a"])])
          initState).1.nodes.length + 1)).kind = .section :=
  heading_sequence_section_nesting envEx [(1, 0, ["a"])] 2 0 ["b"]
    (by decide) (by decide)

/-- C4: two consecutive heading tokens of the same level `L ≥ 1`, with no
intervening content, render without error into two distinct sibling section
nodes (arena indices 2 and `4 + |texts1|`) whose parents are both the document
root — neither section is nested inside the other. -/
theorem consecutive_same_level_headings_siblings (env : Env) (L ln1 ln2 : Nat)
    (texts1 texts2 : List String) (hL : 1 ≤ L) :
    (renderChildren env [Token.heading L ln1 (texts1.map Token.rawText),
        Token.heading L ln2 (texts2.map Token.rawText)] initState).2 = none ∧
    ((renderChildren env [Token.heading L ln1 (texts1.map Token.rawText),
        Token.heading L ln2 (texts2.map Token.rawText)] initState).1.nth 2).kind
      = .section ∧
    ((renderChildren env [Token.heading L ln1 (texts1.map Token.rawText),
        Token.heading L ln2 (texts2.map Token.rawText)] initState).1.nth
        (4 + texts1.length)).kind = .section ∧
    ((renderChildren env [Token.heading L ln1 (texts1.map Token.rawText),
        Token.heading L ln2 (texts2.map Token.rawText)] initState).1.nth 2).parent
      = some initState.document ∧
    ((renderChildren env [Token.heading L ln1 (texts1.map Token.rawText),
        Token.heading L ln2 (texts2.map Token.rawText)] initState).1.nth
        (4 + texts1.length)).parent = some initState.document ∧
    ((renderChildren env [Token.heading L ln1 (texts1.map Token.rawText),
        Token.heading L ln2 (texts2.map Token.rawText)] initState).1.nth
        initState.document).kind = .document ∧
    (2 : Nat) ≠ 4 + texts1.length := by
  obtain ⟨S1, pl1, par1, hr1, hlk1, hpl1, hparlt1, _, _, hstk1, hsn1, hstackEq1, hcur1,
    hlen1, hkind1, hlev1, hparn1, hold1, hdoc1⟩ :=
    heading_step env L ln1 texts1 initState hL stackOk_init sectionsNested_init
  have hpm1 : (pl1, par1) ∈ [((0 : Nat), (0 : Nat))] := lookup_mem _ _ _ hlk1
  have hpar10 : par1 = 0 := congrArg Prod.snd (List.mem_singleton.mp hpm1)
  have hlen1' : S1.nodes.length = 3 + texts1.length := by
    have h := hlen1
    rw [show initState.nodes.length = 1 from rfl] at h
    omega
  have hne0L : ¬ ((0 : Nat) = L) := by omega
  have hstack1c : S1.levelToElem = [(L, 2), (0, 0)] := by
    rw [hstackEq1]
    show ((L, 2) :: [((0 : Nat), (0 : Nat))].filter (fun p => !(p.1 = L))).filter
      (fun p => p.1 ≤ L) = [(L, 2), (0, 0)]
    simp [hne0L]
  obtain ⟨S2, pl2, par2, hr2, hlk2, hpl2, hparlt2, _, _, hstk2, hsn2, hstackEq2, hcur2,
    hlen2, hkind2, hlev2, hparn2, hold2, hdoc2⟩ :=
    heading_step env L ln2 texts2 S1 hL hstk1 hsn1
  have hpm2 : (pl2, par2) ∈ ([(L, 2), (0, 0)] : List (Nat × Nat)) := by
    rw [← hstack1c]
    exact lookup_mem _ _ _ hlk2
  have hpar20 : par2 = 0 := by
    rcases List.mem_cons.mp hpm2 with h | h
    · exact absurd (congrArg Prod.fst h : pl2 = L) (by omega)
    · exact congrArg Prod.snd (List.mem_singleton.mp h)
  have hall2 : renderChildren env [Token.heading L ln1 (texts1.map Token.rawText),
      Token.heading L ln2 (texts2.map Token.rawText)] initState = (S2, none) := by
    show (match render env (Token.heading L ln1 (texts1.map Token.rawText))
        initState with
      | (s1, some e) => (s1, some e)
      | (s1, none) => renderChildren env
          [Token.heading L ln2 (texts2.map Token.rawText)] s1) = (S2, none)
    rw [hr1]
    show (match render env (Token.heading L ln2 (texts2.map Token.rawText)) S1 with
      | (s1, some e) => (s1, some e)
      | (s1, none) => renderChildren env [] s1) = (S2, none)
    rw [hr2]
    rfl
  rw [hall2]
  have hidx : S1.nodes.length + 1 = 4 + texts1.length := by omega
  refine ⟨rfl, ?_, ?_, ?_, ?_, ?_, ?_⟩
  · show (S2.nth 2).kind = NKind.section
    rw [(hold2 2 (by omega)).1]
    exact hkind1
  · show (S2.nth (4 + texts1.length)).kind = NKind.section
    rw [← hidx]
    exact hkind2
  · show (S2.nth 2).parent = some initState.document
    rw [(hold2 2 (by omega)).2.2]
    have hp : (S1.nth 2).parent = some par1 := hparn1
    rw [hp, hpar10]
    rfl
  · show (S2.nth (4 + texts1.length)).parent = some initState.document
    rw [← hidx, hparn2, hpar20]
    rfl
  · show (S2.nth 0).kind = NKind.document
    rw [(hold2 0 (by omega)).1, (hold1 0 (by decide)).1]
    rfl
  · omega

/-- C4 witness: two consecutive level-1 headings on a fresh renderer. -/
theorem consecutive_same_level_headings_siblings_witness :
    (renderChildren envEx [Token.heading 1 0 (["a"].map Token.rawText),
        Token.heading 1 0 (["b"].map Token.rawText)] initState).2 = none ∧
    ((renderChildren envEx [Token.heading 1 0 (["a"].map Token.rawText),
        Token.heading 1 0 (["b"].map Token.rawText)] initState).1.nth 2).kind
      = .section ∧
    ((renderChildren envEx [Token.heading 1 0 (["a"].map Token.rawText),
        Token.heading 1 0 (["b"].map Token.rawText)] initState).1.nth
        (4 + ["a"].length)).kind = .section ∧
    ((renderChildren envEx [Token.heading 1 0 (["a"].map Token.rawText),
        Token.heading 1 0 (["b"].map Token.rawText)] initState).1.nth 2).parent
      = some initState.document ∧
    ((renderChildren envEx [Token.heading 1 0 (["a"].map Token.rawText),
        Token.heading 1 0 (["b"].map Token.rawText)] initState).1.nth
        (4 + ["a"].length)).parent = some initState.document ∧
    ((renderChildren envEx [Token.heading 1 0 (["a"].map Token.rawText),
        Token.heading 1 0 (["b"].map Token.rawText)] initState).1.nth
        initState.document).kind = .document ∧
    (2 : Nat) ≠ 4 + ["a"].length :=
  consecutive_same_level_headings_siblings envEx 1 0 0 ["a"] ["b"] (by decide)

end Mistletoe
